import Mathlib

/-!
Verification of the cc-parser statement-extraction and categorization pipeline.

The Python sources are shallowly embedded: pure functions become Lean
functions over `List Char` / `String`, monetary amounts are modelled as
exact rationals (`Rat`), `datetime` values as a `Date` structure, and the
SQLAlchemy-backed repository layer as explicit state passing over lists of
records.  Each definition carries a comment naming the Python function it
translates.
-/

namespace CCParser

/-! ## Basic character and string helpers (Python semantics) -/

/-- Whitespace class of Python's `str.strip` and of the regex class `\s`
(space, tab, newline, carriage return, form feed, vertical tab), by code
point. -/
def isPyWs (c : Char) : Bool :=
  c.toNat = 32 || c.toNat = 9 || c.toNat = 10 || c.toNat = 13 ||
    c.toNat = 12 || c.toNat = 11

/-- ASCII decimal digit `0`-`9`, the regex class `\d` (Python `re` on
ASCII text), by code point. -/
def isDig (c : Char) : Bool := 48 ≤ c.toNat && c.toNat ≤ 57

/-- ASCII letter, the regex class `[A-Za-z]`, by code point. -/
def isAlpha (c : Char) : Bool :=
  (65 ≤ c.toNat && c.toNat ≤ 90) || (97 ≤ c.toNat && c.toNat ≤ 122)

/-- Python `str.strip()` on a list of characters. -/
def stripChars (cs : List Char) : List Char :=
  ((cs.dropWhile isPyWs).reverse.dropWhile isPyWs).reverse

/-- Python `str.strip()`. -/
def pyStrip (s : String) : String := (stripChars s.data).asString

/-- Python `str.lower()` (ASCII case folding suffices for this code base). -/
def pyLower (s : String) : String := (s.data.map Char.toLower).asString

/-- Occurrence of `needle` as a contiguous sublist of `hay`, i.e. Python's
substring test `needle in hay`, on character lists. -/
def listContains (hay needle : List Char) : Bool :=
  match hay with
  | [] => needle.isEmpty
  | _ :: rest => needle.isPrefixOf hay || listContains rest needle

/-- Python substring test `needle in hay`. -/
def strContains (hay needle : String) : Bool :=
  listContains hay.data needle.data

/-- Lexicographic comparison of character lists by code point, Python
string `<`. -/
def listLtChars : List Char → List Char → Bool
  | [], [] => false
  | [], _ :: _ => true
  | _ :: _, [] => false
  | a :: as, b :: bs =>
    if a < b then true else if b < a then false else listLtChars as bs

/-- Python string comparison `a < b`. -/
def pyStrLt (a b : String) : Bool := listLtChars a.data b.data

/-! ## Dates

Python `datetime` values are modelled as calendar dates (the statements
never carry a time of day). -/

structure Date where
  year : Nat
  month : Nat
  day : Nat
deriving DecidableEq, Repr

/-- Strict chronological order on dates. -/
def dateLt (a b : Date) : Bool :=
  a.year < b.year ||
    (a.year = b.year &&
      (a.month < b.month || (a.month = b.month && a.day < b.day)))

/-- Gregorian leap-year rule used by `datetime`. -/
def isLeap (y : Nat) : Bool :=
  y % 4 = 0 && (y % 100 ≠ 0 || y % 400 = 0)

/-- Length of month `m` of year `y` under the `datetime` calendar. -/
def daysInMonth (y m : Nat) : Nat :=
  if m = 2 then (if isLeap y then 29 else 28)
  else if m = 4 || m = 6 || m = 9 || m = 11 then 30
  else 31

/-- Validity check done by `datetime.strptime` when building a date. -/
def validDate (y m d : Nat) : Bool :=
  1 ≤ y && y ≤ 9999 && 1 ≤ m && m ≤ 12 && 1 ≤ d && d ≤ daysInMonth y m

/-- Step a date forward one calendar day (semantics of `timedelta(days=1)`). -/
def nextDay (d : Date) : Date :=
  if d.day < daysInMonth d.year d.month then ⟨d.year, d.month, d.day + 1⟩
  else if d.month < 12 then ⟨d.year, d.month + 1, 1⟩
  else ⟨d.year + 1, 1, 1⟩

/-- Step a date back one calendar day (semantics of `- timedelta(days=1)`). -/
def prevDay (d : Date) : Date :=
  if d.day > 1 then ⟨d.year, d.month, d.day - 1⟩
  else if d.month > 1 then ⟨d.year, d.month - 1, daysInMonth d.year (d.month - 1)⟩
  else ⟨d.year - 1, 12, 31⟩

/-- Add `n` days to a date, the semantics of `date + timedelta(days=n)`. -/
def addDays (d : Date) : Nat → Date
  | 0 => d
  | n + 1 => nextDay (addDays d n)

/-! ## Stable sorting

Python's `sorted(xs, key=k, reverse=True)` is a stable descending sort:
elements with equal keys keep their original relative order.  `sortBy lt`
is a stable insertion sort in which `lt y x` means "y must stay in front
of x"; an element is inserted behind exactly those earlier elements that
strictly precede it. -/

def insertBy (lt : α → α → Bool) (x : α) : List α → List α
  | [] => [x]
  | y :: ys => if lt y x then y :: insertBy lt x ys else x :: y :: ys

def sortBy (lt : α → α → Bool) : List α → List α
  | [] => []
  | x :: xs => insertBy lt x (sortBy lt xs)

theorem insertBy_perm (lt : α → α → Bool) (x : α) (l : List α) :
    List.Perm (insertBy lt x l) (x :: l) := by
  induction l with
  | nil => simp [insertBy]
  | cons y ys ih =>
    simp only [insertBy]
    by_cases h : lt y x = true
    · simp only [h, if_true]
      exact (ih.cons y).trans (List.Perm.swap x y ys)
    · simp [h]

theorem sortBy_perm (lt : α → α → Bool) (l : List α) :
    List.Perm (sortBy lt l) l := by
  induction l with
  | nil => simp [sortBy]
  | cons x xs ih =>
    exact (insertBy_perm lt x (sortBy lt xs)).trans (ih.cons x)

theorem mem_sortBy (lt : α → α → Bool) (l : List α) (a : α) :
    a ∈ sortBy lt l ↔ a ∈ l :=
  (sortBy_perm lt l).mem_iff

/-! ## TransactionCategorizer (src/utils/categorizer.py)

The hard-coded pattern table of `TransactionCategorizer.__init__` is a dict
from category name to a list of regular expressions.  Every pattern in the
table is either a literal string (letters, spaces, dots escaped by `\.`),
matched by `re.search(pattern, description, re.IGNORECASE)` — i.e. a
case-insensitive substring test — or the one genuine regex
`\d{6,}\s*\d*`, which succeeds exactly when the description contains six
consecutive digits (the `\s*\d*` tail matches the empty string). -/

inductive Pat where
  | lit (s : String)
  | numRef
deriving DecidableEq, Repr

/-- Existence of a run of six consecutive `\d` characters, the acceptance
condition of `re.search(r"\d{6,}\s*\d*", s)`. -/
def hasDigitRun6 (cs : List Char) : Bool :=
  match cs with
  | [] => false
  | _ :: rest => ((cs.take 6).length = 6 && (cs.take 6).all isDig) || hasDigitRun6 rest

/-- One pattern of the categorizer table, applied to the already lowercased
description (all literal patterns in the table are lowercase, so the
`re.IGNORECASE` flag reduces to a plain substring test). -/
def matchPat (p : Pat) (lowered : String) : Bool :=
  match p with
  | .lit s => strContains lowered s
  | .numRef => hasDigitRun6 lowered.data

/-- Translation of the `self.categories` dict of
`TransactionCategorizer.__init__`, in insertion order. -/
def categoriesTable : List (String × List Pat) :=
  [ ("food_dining",
      [ .lit "swiggy", .lit "maison du brownie", .lit "centro pmc",
        .lit "secret story", .lit "maverick and farmer", .lit "zeptonow",
        .lit "bhola and blonde" ]),
    ("transport",
      [ .lit "uber india", .lit "ola", .lit "metro", .lit "railway",
        .lit "irctc" ]),
    ("health_wellness",
      [ .lit "monalisa pharma", .lit "dr ", .lit "hospital", .lit "clinic",
        .lit "rxdx", .lit "icici lombard", .lit "torq 0 3 sports" ]),
    ("shopping",
      [ .lit "mass enterprises", .lit "retail", .lit "shop", .lit "store",
        .lit "market" ]),
    ("subscriptions_services",
      [ .lit "claude.ai subscription", .lit "setupvpn.com", .lit "urbanclap",
        .lit "cred" ]),
    ("donations_charity",
      [ .lit "milaap social", .lit "earth saviours", .lit "donation" ]),
    ("bank_charges",
      [ .lit "foreign currency transaction fee", .lit "gst",
        .lit "processing fee", .lit "annual fee" ]),
    ("payments_transfers",
      [ .lit "bbps payment", .lit "neft", .lit "imps", .lit "upi",
        .lit "transfer", .numRef ]),
    ("insurance",
      [ .lit "icici lombard general", .lit "insurance", .lit "policy" ]),
    ("home_utilities",
      [ .lit "my gate", .lit "maintenance", .lit "electricity",
        .lit "water" ]) ]

/-- Acceptance of `re.match(r"^\d+\s+\d*$", s)`: one or more digits, one or
more whitespace characters, zero or more digits, end of string.  The
character classes at each boundary are disjoint, so greedy matching is
deterministic. -/
def digitsWsDigits (cs : List Char) : Bool :=
  let s1 := cs.dropWhile isDig
  let s2 := s1.dropWhile isPyWs
  let s3 := s2.dropWhile isDig
  (cs.takeWhile isDig).length ≥ 1 && (s1.takeWhile isPyWs).length ≥ 1 && s3.isEmpty

/-- Translation of `TransactionCategorizer.categorize`: lowercase the
description, return the first table category one of whose patterns
matches; otherwise apply the numeric-reference fallback
`re.match(r"^\d+\s+\d*$", description.strip())`, and finally `"others"`. -/
def TransactionCategorizer.categorize (description : String) : String :=
  let d := pyLower description
  match categoriesTable.find? (fun cp => cp.2.any (fun p => matchPat p d)) with
  | some cp => cp.1
  | none => if digitsWsDigits (pyStrip d).data then "payments_transfers" else "others"

/-- Python `s.split(sep)` for a one-character separator, on character
lists: splitting at every occurrence, keeping empty fields. -/
def pySplitChar (sep : Char) : List Char → List (List Char)
  | [] => [[]]
  | c :: rest =>
    match pySplitChar sep rest with
    | [] => [[]]
    | g :: gs => if c = sep then [] :: g :: gs else (c :: g) :: gs

/-- Python `s.split(sep)` for a one-character separator. -/
def pySplit (s : String) (sep : Char) : List String :=
  (pySplitChar sep s.data).map List.asString

/-! ## Axis savings-account parser (src/parsers/axis_saving_parser.py)

The transaction-line regex of `AxisSavingStatementParser.parse_transaction_line`
is `(\d{2}-\d{2}-\d{4})\s+(\/[^0-9]+)\s+(\d+\.\d{2})\s+(\d+\.\d{2})\s+(\d+)`,
applied with `re.search`.  All neighbouring tokens of the pattern draw from
disjoint character classes, so greedy matching is deterministic except for
the description group `[^0-9]+`, whose class overlaps `\s`: there the
translation replays Python's backtracking by trying the longest kept
description first (`descTry`). -/

/-- Consume exactly `n` `\d` characters. -/
def takeDigits : Nat → List Char → Option (List Char × List Char)
  | 0, cs => some ([], cs)
  | _ + 1, [] => none
  | n + 1, c :: cs =>
    if isDig c then (takeDigits n cs).map (fun g => (c :: g.1, g.2)) else none

/-- Consume one expected literal character. -/
def expectChar (c : Char) : List Char → Option (List Char)
  | [] => none
  | x :: xs => if x = c then some xs else none

/-- Consume `\s+` (one or more whitespace characters, maximal munch). -/
def wsPlus (cs : List Char) : Option (List Char × List Char) :=
  let w := cs.takeWhile isPyWs
  if w.isEmpty then none else some (w, cs.dropWhile isPyWs)

/-- Consume `\d+` (one or more digits, maximal munch). -/
def digPlus (cs : List Char) : Option (List Char × List Char) :=
  let w := cs.takeWhile isDig
  if w.isEmpty then none else some (w, cs.dropWhile isDig)

/-- Consume the date group `\d{2}-\d{2}-\d{4}`. -/
def g1Date (cs : List Char) : Option (List Char × List Char) := do
  let (a, r) ← takeDigits 2 cs
  let r ← expectChar '-' r
  let (b, r) ← takeDigits 2 r
  let r ← expectChar '-' r
  let (c, r) ← takeDigits 4 r
  pure (a ++ '-' :: b ++ '-' :: c, r)

/-- Consume an amount group `\d+\.\d{2}`. -/
def takeAmt (cs : List Char) : Option (List Char × List Char) := do
  let (a, r) ← digPlus cs
  let r ← expectChar '.' r
  let (b, r) ← takeDigits 2 r
  pure (a ++ '.' :: b, r)

/-- Consume the pattern tail `\s+(\d+\.\d{2})\s+(\d+\.\d{2})\s+(\d+)` after
the description group, returning the debit, credit and balance groups. -/
def tailAfterDesc (cs : List Char) : Option (List Char × List Char × List Char) := do
  let (_, r) ← wsPlus cs
  let (g3, r) ← takeAmt r
  let (_, r) ← wsPlus r
  let (g4, r) ← takeAmt r
  let (_, r) ← wsPlus r
  let (g5, _) ← digPlus r
  pure (g3, g4, g5)

/-- Backtracking for the greedy `[^0-9]+` description body: `run` is the
maximal non-digit run, and the longest kept prefix (at least one
character) whose remainder lets the tail match wins, exactly Python's
preference order. -/
def descTry (run after : List Char) : Nat → Option (List Char × List Char × List Char × List Char)
  | 0 => none
  | k + 1 =>
    match tailAfterDesc (run.drop (k + 1) ++ after) with
    | some (g3, g4, g5) => some (run.take (k + 1), g3, g4, g5)
    | none => descTry run after k

/-- Match the whole transaction-line regex at the start of `cs`, returning
the five captured groups (date, description, debit, credit, balance). -/
def matchSavingsAt (cs : List Char) :
    Option (String × String × String × String × String) := do
  let (g1, r) ← g1Date cs
  let (_, r) ← wsPlus r
  let r ← expectChar '/' r
  let run := r.takeWhile (fun c => !isDig c)
  let after := r.dropWhile (fun c => !isDig c)
  let (kept, g3, g4, g5) ← descTry run after run.length
  pure (g1.asString, ('/' :: kept).asString, g3.asString, g4.asString, g5.asString)

/-- Translation of `re.search(pattern, line)`: attempt the match at each
start position, earliest position winning. -/
def searchSavings : List Char → Option (String × String × String × String × String)
  | [] => none
  | cs@(_ :: rest) =>
    match matchSavingsAt cs with
    | some g => some g
    | none => searchSavings rest

/-- Numeric value of a run of digit characters. -/
def natOfDigits (cs : List Char) : Nat :=
  cs.foldl (fun n c => n * 10 + (c.toNat - 48)) 0

/-- Translation of `float(amount_str.replace(",", ""))` on an amount group
of shape `digits "." two-digits` (commas removed first, as in the credit
card parser; the savings groups never contain commas).  Amounts are
modelled as exact rationals. -/
def pyFloatAmount (s : String) : Rat :=
  let cs := s.data.filter (fun c => c ≠ ',')
  let intPart := cs.takeWhile isDig
  let frac := (cs.dropWhile isDig).drop 1
  (natOfDigits intPart : Rat) + (natOfDigits frac : Rat) / 100

/-- Translation of `datetime.strptime(s, "%d-%m-%Y")` on a
`dd-mm-yyyy` string; `none` models the `ValueError` raised on a
calendar-invalid date, which `parse_transaction_line` catches. -/
def strptimeDMY (s : String) : Option Date := do
  let (d, r) ← takeDigits 2 s.data
  let r ← expectChar '-' r
  let (m, r) ← takeDigits 2 r
  let r ← expectChar '-' r
  let (y, r) ← takeDigits 4 r
  if r.isEmpty ∧ validDate (natOfDigits y) (natOfDigits m) (natOfDigits d) then
    pure ⟨natOfDigits y, natOfDigits m, natOfDigits d⟩
  else none

/-- Date field of the extracted-transaction dataclass
(src/models/transaction.py).  The dataclass annotates it `datetime`, but
the credit-card parser actually stores the raw date string, so the model
is the union of both; each parser produces only one variant, matching
Python dynamic typing. -/
inductive PyDateVal where
  | dt (d : Date)
  | str (s : String)
deriving DecidableEq, Repr

/-- Python `<` on two date field values; comparing a `datetime` with a
`str` raises `TypeError` in Python and never occurs within one parser, so
the mixed case is mapped to `false`. -/
def pyDateValLt : PyDateVal → PyDateVal → Bool
  | .dt a, .dt b => dateLt a b
  | .str a, .str b => pyStrLt a b
  | _, _ => false

/-- Translation of the `Transaction` dataclass of src/models/transaction.py. -/
structure ParsedTxn where
  date : PyDateVal
  description : String
  amount : Rat
  transaction_type : String
  category : Option String
deriving DecidableEq, Repr

/-- Property `Transaction.is_debit`. -/
def ParsedTxn.is_debit (t : ParsedTxn) : Bool :=
  pyLower t.transaction_type = "debit"

/-- Translation of `sorted(transactions, key=lambda x: x.date, reverse=True)`:
stable descending sort on the date field. -/
def sortTxnsDateDesc (ts : List ParsedTxn) : List ParsedTxn :=
  sortBy (fun y x => pyDateValLt x.date y.date) ts

namespace AxisSavingStatementParser

/-- Translation of `AxisSavingStatementParser._process_description`
(`description.split("/")` is `pySplit`). -/
def process_description (description : String) : String :=
  if strContains description "UPI" then
    let parts := pySplit description '/'
    if h : 4 ≤ parts.length then parts.get ⟨3, by omega⟩ else description
  else description

/-- Translation of `AxisSavingStatementParser.parse_transaction_line`. -/
def parse_transaction_line (line : String) : Option ParsedTxn :=
  match searchSavings line.data with
  | none => none
  | some (date_str, description, debit_str, credit_str, _) =>
    match strptimeDMY date_str with
    | none => none
    | some date =>
      let processed := process_description description
      if debit_str ≠ "" then
        some { date := .dt date, description := processed,
               amount := pyFloatAmount debit_str, transaction_type := "Debit",
               category := some (TransactionCategorizer.categorize processed) }
      else if credit_str ≠ "" then
        some { date := .dt date, description := processed,
               amount := pyFloatAmount credit_str, transaction_type := "Credit",
               category := some (TransactionCategorizer.categorize processed) }
      else none

/-- Acceptance of the section gate `re.match(r"\d{2}-\d{2}-\d{4}", line)`. -/
def dateGate (cs : List Char) : Bool := (g1Date cs).isSome

/-- Translation of the line loop of
`AxisSavingStatementParser.parse_statement`: strip each line, toggle the
`transaction_section` flag on the marker substrings, and parse gated lines
while the flag is set. -/
def scanLines (sect : Bool) : List String → List ParsedTxn
  | [] => []
  | l :: ls =>
    let line := pyStrip l
    if strContains line "OPENING BALANCE" then scanLines true ls
    else if strContains line "CLOSING BALANCE" then scanLines false ls
    else if sect && line ≠ "" && dateGate line.data then
      (parse_transaction_line line).toList ++ scanLines sect ls
    else scanLines sect ls

/-- Translation of `AxisSavingStatementParser.parse_statement`.  The PDF
text extraction is the external collaborator of the spec; its output,
already split at newlines, is the input here. -/
def parse_statement (lines : List String) : List ParsedTxn :=
  sortTxnsDateDesc (scanLines false lines)

end AxisSavingStatementParser

/-! ## Axis credit-card parser (src/parsers/axis_parser.py)

The line regex of `AxisBankStatementParser.parse_transaction_line` is
`(\d{2}\s+[A-Za-z]+\s+\'\d{2})\s+(.*?)\s+₹\s*([\d,]+\.\d{2})\s+(Debit|Credit)`,
applied with `re.match` (anchored at the start of the line, open at the
end).  The only non-deterministic quantifiers are the greedy `\s+` before
the description and the lazy `(.*?)` description itself; the translation
replays Python's preference order (longest leading whitespace first, then
shortest description). -/

/-- The apostrophe character of the date group literal `\'`. -/
def apoChar : Char := Char.ofNat 39

/-- Consume the tail `\s+₹\s*([\d,]+\.\d{2})\s+(Debit|Credit)` after the
description, returning the amount group and the direction group
(alternation tries `Debit` first; nothing anchors the end of the line). -/
def ccTail (cs : List Char) : Option (String × String) := do
  let (_, r) ← wsPlus cs
  let r ← expectChar '₹' r
  let r := r.dropWhile isPyWs
  let amtRun := r.takeWhile (fun c => isDig c || c = ',')
  if amtRun.isEmpty then none else do
  let r := r.dropWhile (fun c => isDig c || c = ',')
  let r ← expectChar '.' r
  let (two, r) ← takeDigits 2 r
  let (_, r) ← wsPlus r
  if "Debit".data.isPrefixOf r then pure ((amtRun ++ '.' :: two).asString, "Debit")
  else if "Credit".data.isPrefixOf r then pure ((amtRun ++ '.' :: two).asString, "Credit")
  else none

/-- Lazy `(.*?)` loop: the shortest description prefix after which `ccTail`
matches wins; `.` never crosses a newline.  `descAcc` holds the consumed
description reversed; the fuel equals the remaining length. -/
def ccFindDesc : Nat → List Char → List Char → Option (String × String × String)
  | fuel, descAcc, rest =>
    match ccTail rest with
    | some (a, t) => some (descAcc.reverse.asString, a, t)
    | none =>
      match fuel, rest with
      | f + 1, c :: rs => if c = '\n' then none else ccFindDesc f (c :: descAcc) rs
      | _, _ => none

/-- Greedy `\s+` before the lazy description: the longest whitespace run is
tried first, shorter runs donate their surplus to the description. -/
def ccWsLoop (wrun rest2 : List Char) : Nat → Option (String × String × String)
  | 0 => none
  | i + 1 =>
    let start := wrun.drop (i + 1) ++ rest2
    match ccFindDesc start.length [] start with
    | some r => some r
    | none => ccWsLoop wrun rest2 i

/-- Match the whole credit-card line regex at the start of `cs`, returning
the groups (date, description, amount, direction). -/
def matchCCAt (cs : List Char) : Option (String × String × String × String) := do
  let (d2, r) ← takeDigits 2 cs
  let (w1, r) ← wsPlus r
  let alphaRun := r.takeWhile isAlpha
  if alphaRun.isEmpty then none else do
  let r := r.dropWhile isAlpha
  let (w2, r) ← wsPlus r
  let r ← expectChar apoChar r
  let (y2, r) ← takeDigits 2 r
  let wrun := r.takeWhile isPyWs
  if wrun.isEmpty then none else do
  let rest2 := r.dropWhile isPyWs
  let (desc, amt, dir) ← ccWsLoop wrun rest2 wrun.length
  pure ((d2 ++ w1 ++ alphaRun ++ w2 ++ apoChar :: y2).asString, desc, amt, dir)

namespace AxisBankStatementParser

/-- Translation of `AxisBankStatementParser.parse_transaction_line`.  Note
that the matched date group string itself becomes the `date` field (the
`datetime.strptime` conversion is commented out in the source), while the
description is stripped for the field but categorized unstripped. -/
def parse_transaction_line (line : String) : Option ParsedTxn :=
  match matchCCAt line.data with
  | none => none
  | some (date_str, description, amount, txn_type) =>
    some { date := .str date_str, description := pyStrip description,
           amount := pyFloatAmount amount, transaction_type := txn_type,
           category := some (TransactionCategorizer.categorize description) }

/-- Translation of `AxisBankStatementParser.parse_statement`: skip header,
footer and blank lines, parse the rest, sort by the `date` field
descending.  Input lines come from the external text extractor. -/
def parse_statement (lines : List String) : List ParsedTxn :=
  sortTxnsDateDesc (lines.filterMap (fun line =>
    if strContains line "Transaction Details" || strContains line "Page" ||
        strContains line "Credit Card Number" ||
        strContains line "End of Transaction" || pyStrip line = "" then none
    else parse_transaction_line line))

end AxisBankStatementParser

/-- Month abbreviations of `%b` in C locale order. -/
def monthAbbrevs : List String :=
  ["Jan", "Feb", "Mar", "Apr", "May", "Jun",
   "Jul", "Aug", "Sep", "Oct", "Nov", "Dec"]

/-- Intended chronological reading of a credit-card date group, the
`datetime.strptime(date_str, "%d %b \x27%y")` conversion that the source
carries in a disabled line: day, month abbreviation, two-digit year
(2000-based). -/
def ccDateChron (s : String) : Option Date := do
  let (d, r) ← takeDigits 2 s.data
  let (_, r) ← wsPlus r
  let ab := r.takeWhile isAlpha
  let r := r.dropWhile isAlpha
  let (_, r) ← wsPlus r
  let r ← expectChar apoChar r
  let (y2, r) ← takeDigits 2 r
  match (monthAbbrevs.indexOf ab.asString) + 1, r.isEmpty with
  | m, true =>
    if m ≤ 12 ∧ validDate (2000 + natOfDigits y2) m (natOfDigits d) then
      pure ⟨2000 + natOfDigits y2, m, natOfDigits d⟩
    else none
  | _, false => none

/-! ## Category mappings (src/repositories/category_repository.py)

`CategoryMapping` rows live in a table modelled as a plain list.  Regex
rules call Python's `re.search` on arbitrary user-supplied patterns; that
external engine is abstracted as an oracle returning `none` for a pattern
that fails to compile (`re.error`, which the code skips with a warning)
and `some b` for a successful test. -/

structure CategoryMapping where
  user_id : Nat
  pattern : String
  category : String
  is_regex : Bool
  priority : Int
  is_active : Bool
deriving DecidableEq, Repr

/-- Outcome of `re.search(pattern, text, re.IGNORECASE)` for a
user-supplied rule pattern: `none` models `re.error`. -/
def RegexOracle := String → String → Option Bool

/-- Row order of the SQL `ORDER BY priority DESC, pattern` clause:
`y` stays in front of `x` when it has higher priority, or equal priority
and a lexicographically earlier pattern. -/
def mappingOrderLt (y x : CategoryMapping) : Bool :=
  decide (x.priority < y.priority) ||
    (decide (y.priority = x.priority) && pyStrLt y.pattern x.pattern)

namespace CategoryRepository

/-- Translation of `CategoryRepository.get_category_mappings_by_user`:
the user's active mappings ordered by `(priority DESC, pattern ASC)`. -/
def get_category_mappings_by_user (db : List CategoryMapping) (user_id : Nat) :
    List CategoryMapping :=
  sortBy mappingOrderLt
    (db.filter (fun m => m.user_id = user_id && m.is_active))

/-- One iteration of the matching loop of
`CategoryRepository.categorize_transaction`: regex rules through the
oracle (an invalid pattern is skipped), literal rules by case-insensitive
substring. -/
def matchesMapping (oracle : RegexOracle) (description_lower : String)
    (m : CategoryMapping) : Bool :=
  if m.is_regex then (oracle m.pattern description_lower).getD false
  else strContains description_lower (pyLower m.pattern)

/-- Translation of `CategoryRepository.categorize_transaction`: fetch the
user's active mappings, re-sort them by priority descending (Python's
stable `sorted`), and return the category of the first matching rule,
`none` when no rule matches. -/
def categorize_transaction (oracle : RegexOracle) (db : List CategoryMapping)
    (user_id : Nat) (description : String) : Option String :=
  let mappings := get_category_mappings_by_user db user_id
  let mappings := sortBy (fun y x => decide (x.priority < y.priority)) mappings
  let description_lower := pyLower description
  (mappings.find? (matchesMapping oracle description_lower)).map (fun m => m.category)

end CategoryRepository

/-! ## Persisted rows and the statement-processing service
(src/models/database_models.py, src/repositories/transaction_repository.py,
src/repositories/statement_repository.py, src/services/statement_service.py) -/

inductive TransactionType where
  | DEBIT
  | CREDIT
deriving DecidableEq, Repr

/-- Translation of the `Transaction` ORM model (a persisted row). -/
structure TxnRow where
  id : Nat
  statement_id : Nat
  transaction_date : PyDateVal
  description : String
  amount : Rat
  transaction_type : TransactionType
  category : Option String
  original_category : Option String
  is_categorized_by_llm : Bool
  llm_confidence : Option Rat
  user_corrected : Bool
deriving DecidableEq, Repr

/-- Translation of the `Statement` ORM model (the fields the claims
touch). -/
structure StatementRec where
  id : Nat
  user_id : Nat
  total_debits : Rat
  total_credits : Rat
  transaction_count : Nat
  parsing_status : String
  parsing_errors : Option String
deriving DecidableEq, Repr

/-- Column defaults of a freshly created `Statement` row. -/
def freshStatement (id user_id : Nat) : StatementRec :=
  { id := id, user_id := user_id, total_debits := 0, total_credits := 0,
    transaction_count := 0, parsing_status := "pending", parsing_errors := none }

/-- Database state around one statement: its record, its owned transaction
rows, and the id counter of the transactions table. -/
structure ProcState where
  statement : StatementRec
  transactions : List TxnRow
  next_id : Nat
deriving DecidableEq, Repr

/-- Translation of `StatementRepository.update_parsing_status` (the
`if errors:` guard keeps the old detail for a falsy argument). -/
def update_parsing_status (s : ProcState) (status : String)
    (errors : Option String) : ProcState :=
  { s with statement :=
      { s.statement with
        parsing_status := status,
        parsing_errors :=
          match errors with
          | some e => if e = "" then s.statement.parsing_errors else some e
          | none => s.statement.parsing_errors } }

/-- Translation of `StatementRepository.update_statement_summary`: store
the three totals and move `parsing_status` to `completed`. -/
def update_statement_summary (s : ProcState) (total_debits total_credits : Rat)
    (transaction_count : Nat) : ProcState :=
  { s with statement :=
      { s.statement with
        total_debits := total_debits, total_credits := total_credits,
        transaction_count := transaction_count, parsing_status := "completed" } }

/-- Python `category or txn.category` on the two optional categories: the
left value unless it is `None` or the empty string. -/
def pyOrCategory (category fallback : Option String) : Option String :=
  match category with
  | some c => if c = "" then fallback else some c
  | none => fallback

/-- Translation of the body of `TransactionRepository.create_transaction`
as called from `process_statement` (row creation succeeds; database
errors are outside the model). -/
def create_transaction (s : ProcState) (txn : ParsedTxn)
    (txn_type : TransactionType) (category : Option String) : ProcState :=
  { s with
    transactions := s.transactions ++
      [{ id := s.next_id, statement_id := s.statement.id,
         transaction_date := txn.date, description := txn.description,
         amount := txn.amount, transaction_type := txn_type,
         category := category, original_category := none,
         is_categorized_by_llm := false, llm_confidence := none,
         user_corrected := false }],
    next_id := s.next_id + 1 }

/-- One iteration of the transaction loop of
`StatementService.process_statement`: categorize against the user's
mappings, derive the row direction from `txn.is_debit`, write the row
with `category or txn.category`, and accumulate the running totals. -/
def processStep (oracle : RegexOracle) (db : List CategoryMapping)
    (acc : Rat × Rat × ProcState) (txn : ParsedTxn) : Rat × Rat × ProcState :=
  let (td, tc, s) := acc
  let category :=
    CategoryRepository.categorize_transaction oracle db s.statement.user_id txn.description
  let txn_type := if txn.is_debit then TransactionType.DEBIT else TransactionType.CREDIT
  let s := create_transaction s txn txn_type (pyOrCategory category txn.category)
  if txn.is_debit then (td + txn.amount, tc, s) else (td, tc + txn.amount, s)

/-- Translation of `StatementService.process_statement`.  The statement
record is present in the state; `hasParser` is the `self.parsers.get`
lookup; `parsed` is what `parser.parse_statement` returned (the text
extraction being the external collaborator).  Returns the method's boolean
together with the final database state. -/
def process_statement (oracle : RegexOracle) (db : List CategoryMapping)
    (hasParser : Bool) (parsed : List ParsedTxn) (s : ProcState) :
    Bool × ProcState :=
  let s := update_parsing_status s "processing" none
  if !hasParser then
    (false, update_parsing_status s "failed" (some "No parser for bank type"))
  else if parsed.isEmpty then
    (true, update_parsing_status s "completed" none)
  else
    let (td, tc, s) := parsed.foldl (processStep oracle db) (0, 0, s)
    (true, update_statement_summary s td tc parsed.length)

/-- First row of the transactions table with the given id
(`get_transaction_by_id`, a `.first()` query). -/
def get_transaction_by_id (rows : List TxnRow) (transaction_id : Nat) :
    Option TxnRow :=
  rows.find? (fun r => r.id = transaction_id)

/-- Replace the first row with the given id (the ORM mutates the fetched
object in place). -/
def replaceFirstRow (rows : List TxnRow) (transaction_id : Nat) (t2 : TxnRow) :
    List TxnRow :=
  match rows with
  | [] => []
  | r :: rs =>
    if r.id = transaction_id then t2 :: rs
    else r :: replaceFirstRow rs transaction_id t2

/-- Translation of `TransactionRepository.update_transaction_category`:
latch `original_category` from the current category while it is falsy
(`None` or empty), then overwrite `category` and `user_corrected`.
Returns the updated row (or `none` for an unknown id) and the new table. -/
def update_transaction_category (rows : List TxnRow) (transaction_id : Nat)
    (category : String) (user_corrected : Bool) : Option TxnRow × List TxnRow :=
  match get_transaction_by_id rows transaction_id with
  | none => (none, rows)
  | some t =>
    let orig :=
      if t.original_category = none || t.original_category = some "" then t.category
      else t.original_category
    let t2 := { t with original_category := orig, category := some category,
                       user_corrected := user_corrected }
    (some t2, replaceFirstRow rows transaction_id t2)

/-! ## Spending analysis (src/repositories/transaction_repository.py,
src/services/transaction_service.py)

`get_category_summary` is a SQL `GROUP BY category` over the user's debit
rows in a date range; it is modelled as one group per distinct category in
first-appearance order, with groups of a falsy category (`NULL` or empty)
dropped by the `if category:` guard. -/

/-- First-occurrence deduplication (the distinct keys of a `GROUP BY`). -/
def dedupFirst [DecidableEq α] (seen : List α) : List α → List α
  | [] => []
  | x :: xs =>
    if x ∈ seen then dedupFirst seen xs else x :: dedupFirst (x :: seen) xs

/-- Row filter `transaction_date >= start_date` (a `datetime` column; a
string-dated row never satisfies a date bound). -/
def pyDtGe (d : PyDateVal) (s : Date) : Bool :=
  match d with
  | .dt a => !dateLt a s
  | .str _ => false

/-- Row filter `transaction_date <= end_date`. -/
def pyDtLe (d : PyDateVal) (e : Date) : Bool :=
  match d with
  | .dt a => !dateLt e a
  | .str _ => false

/-- The rows selected by the `get_category_summary` query: debit direction,
within the optional date bounds.  The rows of the state are the user's
own (the query joins on the user's statements). -/
def summaryRows (rows : List TxnRow) (sd ed : Option Date) : List TxnRow :=
  rows.filter (fun r =>
    r.transaction_type = TransactionType.DEBIT &&
    (match sd with | some s => pyDtGe r.transaction_date s | none => true) &&
    (match ed with | some e => pyDtLe r.transaction_date e | none => true))

/-- Translation of `TransactionRepository.get_category_summary`: per
distinct truthy category, `(category, SUM(amount), COUNT(id))`. -/
def get_category_summary (rows : List TxnRow) (sd ed : Option Date) :
    List (String × Rat × Nat) :=
  let q := summaryRows rows sd ed
  (dedupFirst [] (q.map (fun r => r.category))).filterMap (fun oc =>
    match oc with
    | none => none
    | some c =>
      if c = "" then none
      else
        some (c, ((q.filter (fun r => r.category = some c)).map (fun r => r.amount)).sum,
              (q.filter (fun r => r.category = some c)).length))

/-- The `total_spending` field of `get_spending_analysis`: the sum of the
per-category totals. -/
def total_spending (summary : List (String × Rat × Nat)) : Rat :=
  (summary.map (fun x => x.2.1)).sum

/-- The `total_transactions` field of `get_spending_analysis`. -/
def total_transactions (summary : List (String × Rat × Nat)) : Nat :=
  (summary.map (fun x => x.2.2)).sum

/-- First calendar day of a month (`date.replace(day=1)`). -/
def monthStart (y m : Nat) : Date := ⟨y, m, 1⟩

/-- Last calendar day of a month, computed exactly as the source does:
`(start + timedelta(days=32)).replace(day=1) - timedelta(days=1)`. -/
def monthLast (y m : Nat) : Date :=
  let n := addDays (monthStart y m) 32
  prevDay ⟨n.year, n.month, 1⟩

/-- Acceptance of `datetime.strptime(month, "%Y-%m")` with the month given
numerically: a failing parse raises, which `get_monthly_comparison`
catches, returning the empty dict (modelled as `none`). -/
def validYM (y m : Nat) : Bool :=
  1 ≤ y && y ≤ 9999 && 1 ≤ m && m ≤ 12

/-- The comparison block computed by
`TransactionService.get_monthly_comparison`. -/
structure MonthlyComparison where
  month1_spending : Rat
  month2_spending : Rat
  month1_transactions : Nat
  month2_transactions : Nat
  spending_difference : Rat
  spending_change_percentage : Rat
  transaction_difference : Int
deriving Repr

/-- Translation of `TransactionService.get_monthly_comparison`: derive each
month's first and last day, run the spending analysis on each range, and
report the difference and the zero-guarded percentage change. -/
def get_monthly_comparison (rows : List TxnRow) (y1 m1 y2 m2 : Nat) :
    Option MonthlyComparison :=
  if validYM y1 m1 && validYM y2 m2 then
    let summary1 := get_category_summary rows (some (monthStart y1 m1)) (some (monthLast y1 m1))
    let summary2 := get_category_summary rows (some (monthStart y2 m2)) (some (monthLast y2 m2))
    let t1 := total_spending summary1
    let t2 := total_spending summary2
    let spending_diff := t2 - t1
    let spending_change_pct := if t1 > 0 then spending_diff / t1 * 100 else 0
    some { month1_spending := t1, month2_spending := t2,
           month1_transactions := total_transactions summary1,
           month2_transactions := total_transactions summary2,
           spending_difference := spending_diff,
           spending_change_percentage := spending_change_pct,
           transaction_difference :=
             (total_transactions summary2 : Int) - (total_transactions summary1 : Int) }
  else none

/-! ## Claim C9: description post-processing -/

/-- C9 counterexample: the description `NEFT/a/b/c` is a `/`-delimited
wire-transfer-style description with exactly four `/`-delimited segments,
yet post-processing returns it unmodified instead of its 4th segment
`c`, because the code only splits descriptions containing the substring
`UPI`. -/
theorem C9_counterexample_non_upi_description :
    AxisSavingStatementParser.process_description "NEFT/a/b/c" = "NEFT/a/b/c" ∧
    (pySplit "NEFT/a/b/c" '/').length = 4 ∧
    (pySplit "NEFT/a/b/c" '/').getLast? = some "c" ∧
    AxisSavingStatementParser.process_description "NEFT/a/b/c" ≠ "c" := by
  decide

/-- C9 amended: description post-processing extracts the 4th `/`-delimited
segment only for descriptions containing the substring `UPI` and having at
least four segments; a description without `UPI` (whatever its segment
count) and a description with fewer than four segments are returned
unmodified. -/
theorem C9_process_description_upi_gate (d : String) :
    (strContains d "UPI" = false →
      AxisSavingStatementParser.process_description d = d) ∧
    ((pySplit d '/').length < 4 →
      AxisSavingStatementParser.process_description d = d) ∧
    (∀ h4 : 4 ≤ (pySplit d '/').length, strContains d "UPI" = true →
      AxisSavingStatementParser.process_description d = (pySplit d '/').get ⟨3, by omega⟩) := by
  unfold AxisSavingStatementParser.process_description
  by_cases hc : strContains d "UPI" = true
  · refine ⟨fun h => absurd hc (by simp [h]), ?_, ?_⟩
    · intro hlen
      rw [if_pos hc, dif_neg (by omega)]
    · intro h4 _
      rw [if_pos hc, dif_pos h4]
  · have hc' : strContains d "UPI" = false := by
      revert hc; cases strContains d "UPI" <;> simp
    rw [if_neg (by simp [hc'])]
    exact ⟨fun _ => rfl, fun _ => rfl, fun _ h => absurd h (by simp [hc'])⟩

/-! ## Claim C7: output ordering of the two parsers -/

/-- C7 failing input, credit-card parser: a document whose lines carry the
dates `15 Dec '24` and `02 Jan '25`.  The parser keeps the raw date
strings and sorts them as strings, so the December transaction is
returned first although the January one is chronologically more recent
(`ccDateChron` is the disabled `strptime` conversion the source carries):
the output is not sorted by transaction date descending. -/
theorem C7_counterexample_cc_string_date_order :
    (AxisBankStatementParser.parse_statement
        ["15 Dec '24 AAA ₹ 1.00 Debit", "02 Jan '25 BBB ₹ 2.00 Credit"]).map
        (fun t => t.date) = [.str "15 Dec '24", .str "02 Jan '25"] ∧
    ccDateChron "15 Dec '24" = some ⟨2024, 12, 15⟩ ∧
    ccDateChron "02 Jan '25" = some ⟨2025, 1, 2⟩ ∧
    dateLt ⟨2024, 12, 15⟩ ⟨2025, 1, 2⟩ = true := by
  decide

/-! ## Claim C10: original_category latch of update_transaction_category -/

/-- Concrete transactions table for the C10 counterexample: one row whose
category is still NULL. -/
def c10Rows : List TxnRow :=
  [{ id := 7, statement_id := 1, transaction_date := .dt ⟨2024, 1, 1⟩,
     description := "d", amount := 5, transaction_type := .DEBIT,
     category := none, original_category := none,
     is_categorized_by_llm := false, llm_confidence := none,
     user_corrected := false }]

/-- C10 counterexample: on a transaction whose category is NULL, the first
category update leaves `original_category` unset (it latches the falsy
current category), and the second update then stores the first corrected
category — a subsequent update does change the stored
`original_category`, contradicting the claim that it is left unchanged on
every subsequent update. -/
theorem C10_counterexample_second_update_changes_original :
    ((update_transaction_category c10Rows 7 "food" true).2.head?).map
      (fun r => r.original_category) = some none ∧
    (((update_transaction_category
        (update_transaction_category c10Rows 7 "food" true).2
        7 "transport" true).2.head?).map (fun r => r.original_category)) =
      some (some "food") := by
  decide

/-- C10 amended: an update latches `original_category` from the pre-update
category exactly while it is falsy (NULL or empty) — so it is unchanged on
a subsequent update only once it holds a non-empty value, and when the
pre-update category was itself falsy the latch stays open for later
updates — and every field other than `category`, `user_corrected` and
`original_category` is unchanged. -/
theorem C10_update_category_latch (rows : List TxnRow) (tid : Nat)
    (cat : String) (uc : Bool) (t : TxnRow)
    (hfind : get_transaction_by_id rows tid = some t) :
    ∃ t2, (update_transaction_category rows tid cat uc).1 = some t2 ∧
      (update_transaction_category rows tid cat uc).2 = replaceFirstRow rows tid t2 ∧
      t2.category = some cat ∧ t2.user_corrected = uc ∧
      ((t.original_category = none ∨ t.original_category = some "") →
        t2.original_category = t.category) ∧
      (t.original_category ≠ none → t.original_category ≠ some "" →
        t2.original_category = t.original_category) ∧
      t2.id = t.id ∧ t2.statement_id = t.statement_id ∧
      t2.transaction_date = t.transaction_date ∧
      t2.description = t.description ∧ t2.amount = t.amount ∧
      t2.transaction_type = t.transaction_type ∧
      t2.is_categorized_by_llm = t.is_categorized_by_llm ∧
      t2.llm_confidence = t.llm_confidence := by
  unfold update_transaction_category
  rw [hfind]
  refine ⟨_, rfl, rfl, rfl, rfl, ?_, ?_, rfl, rfl, rfl, rfl, rfl, rfl, rfl, rfl⟩
  · intro h
    have hb : (decide (t.original_category = none) ||
        decide (t.original_category = some "")) = true := by
      rcases h with h | h <;> simp [h]
    simp [hb]
  · intro h1 h2
    have hb : (decide (t.original_category = none) ||
        decide (t.original_category = some "")) = false := by
      simp [h1, h2]
    simp [hb]

/-- C10 witness row: a transaction whose `original_category` is already a
non-empty value. -/
def c10WitRow : TxnRow :=
  { id := 3, statement_id := 1, transaction_date := .dt ⟨2024, 2, 2⟩,
    description := "w", amount := 9, transaction_type := .CREDIT,
    category := some "others", original_category := some "transport",
    is_categorized_by_llm := false, llm_confidence := none,
    user_corrected := false }

/-- C10 witness: the amended latch theorem applied to a concrete table. -/
theorem C10_update_category_latch_witness :
    ∃ t2, (update_transaction_category [c10WitRow] 3 "food_dining" true).1 = some t2 ∧
      (update_transaction_category [c10WitRow] 3 "food_dining" true).2 =
        replaceFirstRow [c10WitRow] 3 t2 ∧
      t2.category = some "food_dining" ∧ t2.user_corrected = true ∧
      ((c10WitRow.original_category = none ∨ c10WitRow.original_category = some "") →
        t2.original_category = c10WitRow.category) ∧
      (c10WitRow.original_category ≠ none → c10WitRow.original_category ≠ some "" →
        t2.original_category = c10WitRow.original_category) ∧
      t2.id = c10WitRow.id ∧ t2.statement_id = c10WitRow.statement_id ∧
      t2.transaction_date = c10WitRow.transaction_date ∧
      t2.description = c10WitRow.description ∧ t2.amount = c10WitRow.amount ∧
      t2.transaction_type = c10WitRow.transaction_type ∧
      t2.is_categorized_by_llm = c10WitRow.is_categorized_by_llm ∧
      t2.llm_confidence = c10WitRow.llm_confidence :=
  C10_update_category_latch [c10WitRow] 3 "food_dining" true c10WitRow (by decide)

/-! ## Claim C1: statement summary totals -/

/-- Sum of the amounts of the debit-direction rows. -/
def debitSumRows (rows : List TxnRow) : Rat :=
  ((rows.filter (fun r => r.transaction_type = TransactionType.DEBIT)).map
    (fun r => r.amount)).sum

/-- Sum of the amounts of the credit-direction rows. -/
def creditSumRows (rows : List TxnRow) : Rat :=
  ((rows.filter (fun r => r.transaction_type = TransactionType.CREDIT)).map
    (fun r => r.amount)).sum

/-- Sum of the amounts of the parsed transactions with `is_debit`. -/
def debitSumParsed (parsed : List ParsedTxn) : Rat :=
  ((parsed.filter (fun t => t.is_debit)).map (fun t => t.amount)).sum

/-- Sum of the amounts of the parsed transactions without `is_debit`. -/
def creditSumParsed (parsed : List ParsedTxn) : Rat :=
  ((parsed.filter (fun t => !t.is_debit)).map (fun t => t.amount)).sum

theorem processFold_spec (oracle : RegexOracle) (db : List CategoryMapping) :
    ∀ (parsed : List ParsedTxn) (td tc : Rat) (s : ProcState),
      (parsed.foldl (processStep oracle db) (td, tc, s)).2.2.statement = s.statement ∧
      (parsed.foldl (processStep oracle db) (td, tc, s)).1 = td + debitSumParsed parsed ∧
      (parsed.foldl (processStep oracle db) (td, tc, s)).2.1 = tc + creditSumParsed parsed ∧
      debitSumRows (parsed.foldl (processStep oracle db) (td, tc, s)).2.2.transactions =
        debitSumRows s.transactions + debitSumParsed parsed ∧
      creditSumRows (parsed.foldl (processStep oracle db) (td, tc, s)).2.2.transactions =
        creditSumRows s.transactions + creditSumParsed parsed ∧
      (parsed.foldl (processStep oracle db) (td, tc, s)).2.2.transactions.length =
        s.transactions.length + parsed.length := by
  intro parsed
  induction parsed with
  | nil =>
    intro td tc s
    simp [debitSumParsed, creditSumParsed, debitSumRows, creditSumRows]
  | cons txn rest ih =>
    intro td tc s
    simp only [List.foldl_cons]
    cases hdb : txn.is_debit with
    | true =>
      have hstep : processStep oracle db (td, tc, s) txn =
          (td + txn.amount, tc,
            create_transaction s txn TransactionType.DEBIT
              (pyOrCategory (CategoryRepository.categorize_transaction oracle db
                s.statement.user_id txn.description) txn.category)) := by
        simp [processStep, hdb]
      rw [hstep]
      obtain ⟨h1, h2, h3, h4, h5, h6⟩ := ih (td + txn.amount) tc
        (create_transaction s txn TransactionType.DEBIT
          (pyOrCategory (CategoryRepository.categorize_transaction oracle db
            s.statement.user_id txn.description) txn.category))
      refine ⟨by rw [h1]; rfl, ?_, ?_, ?_, ?_, ?_⟩
      · rw [h2]
        simp [debitSumParsed, hdb]
        ring
      · rw [h3]
        simp [creditSumParsed, hdb]
      · rw [h4]
        simp [debitSumRows, creditSumRows, create_transaction, List.filter_append,
          debitSumParsed, hdb]
        ring
      · rw [h5]
        simp [creditSumRows, create_transaction, List.filter_append,
          creditSumParsed, hdb]
      · rw [h6]
        simp [create_transaction]
        omega
    | false =>
      have hstep : processStep oracle db (td, tc, s) txn =
          (td, tc + txn.amount,
            create_transaction s txn TransactionType.CREDIT
              (pyOrCategory (CategoryRepository.categorize_transaction oracle db
                s.statement.user_id txn.description) txn.category)) := by
        simp [processStep, hdb]
      rw [hstep]
      obtain ⟨h1, h2, h3, h4, h5, h6⟩ := ih td (tc + txn.amount)
        (create_transaction s txn TransactionType.CREDIT
          (pyOrCategory (CategoryRepository.categorize_transaction oracle db
            s.statement.user_id txn.description) txn.category))
      refine ⟨by rw [h1]; rfl, ?_, ?_, ?_, ?_, ?_⟩
      · rw [h2]
        simp [debitSumParsed, hdb]
      · rw [h3]
        simp [creditSumParsed, hdb]
        ring
      · rw [h4]
        simp [debitSumRows, create_transaction, List.filter_append,
          debitSumParsed, hdb]
      · rw [h5]
        simp [creditSumRows, create_transaction, List.filter_append,
          creditSumParsed, hdb]
        ring
      · rw [h6]
        simp [create_transaction]
        omega

/-- C1 amended: when `process_statement` runs on a statement with no
previously recorded transactions and its summary fields at their zero
defaults (the state of a freshly created statement record), a run that
ends with `parsing_status = "completed"` leaves `total_debits` equal to
the sum of the amounts of the statement's debit-direction rows,
`total_credits` equal to the sum over its credit-direction rows, and
`transaction_count` equal to the number of its rows — including the
zero-transaction case, where all totals stay zero. -/
theorem C1_completed_summary_matches_rows (oracle : RegexOracle)
    (db : List CategoryMapping) (hasParser : Bool) (parsed : List ParsedTxn)
    (s : ProcState) (hrows : s.transactions = [])
    (hd : s.statement.total_debits = 0) (hc : s.statement.total_credits = 0)
    (hn : s.statement.transaction_count = 0) :
    (process_statement oracle db hasParser parsed s).2.statement.parsing_status = "completed" →
    ((process_statement oracle db hasParser parsed s).2.statement.total_debits =
        debitSumRows (process_statement oracle db hasParser parsed s).2.transactions ∧
      (process_statement oracle db hasParser parsed s).2.statement.total_credits =
        creditSumRows (process_statement oracle db hasParser parsed s).2.transactions ∧
      (process_statement oracle db hasParser parsed s).2.statement.transaction_count =
        (process_statement oracle db hasParser parsed s).2.transactions.length) := by
  intro hstatus
  unfold process_statement at hstatus ⊢
  cases hasParser with
  | false =>
    simp [update_parsing_status] at hstatus
  | true =>
    by_cases hemp : parsed.isEmpty
    · simp only [hemp, Bool.not_true, if_false, if_true, Bool.false_eq_true]
      simp [update_parsing_status, hrows, hd, hc, hn, debitSumRows, creditSumRows]
    · simp only [hemp, Bool.not_true, if_false, Bool.false_eq_true]
      obtain ⟨h1, h2, h3, h4, h5, h6⟩ := processFold_spec oracle db parsed 0 0
        (update_parsing_status s "processing" none)
      simp only [update_statement_summary]
      have htr : (update_parsing_status s "processing" none).transactions = [] := hrows
      constructor
      · rw [h2, h4, htr]
        simp [debitSumRows]
      constructor
      · rw [h3, h5, htr]
        simp [creditSumRows]
      · rw [h6, htr]
        simp

/-- C1 witness state: a freshly created statement record with no rows. -/
def c1WitState : ProcState :=
  { statement := freshStatement 1 1, transactions := [], next_id := 1 }

/-- C1 witness parsed input: one debit and one credit transaction. -/
def c1WitParsed : List ParsedTxn :=
  [{ date := .dt ⟨2024, 1, 2⟩, description := "/NEFT/a", amount := 5,
     transaction_type := "Debit", category := some "payments_transfers" },
   { date := .dt ⟨2024, 1, 1⟩, description := "salary", amount := 7,
     transaction_type := "Credit", category := some "others" }]

/-- C1 witness: the amended summary theorem applied to a fresh statement
and a concrete parsed list, whose run does end `completed`. -/
theorem C1_completed_summary_matches_rows_witness :
    (process_statement (fun _ _ => some false) [] true c1WitParsed c1WitState).2.statement.total_debits =
        debitSumRows (process_statement (fun _ _ => some false) [] true c1WitParsed c1WitState).2.transactions ∧
      (process_statement (fun _ _ => some false) [] true c1WitParsed c1WitState).2.statement.total_credits =
        creditSumRows (process_statement (fun _ _ => some false) [] true c1WitParsed c1WitState).2.transactions ∧
      (process_statement (fun _ _ => some false) [] true c1WitParsed c1WitState).2.statement.transaction_count =
        (process_statement (fun _ _ => some false) [] true c1WitParsed c1WitState).2.transactions.length :=
  C1_completed_summary_matches_rows (fun _ _ => some false) [] true
    c1WitParsed c1WitState rfl rfl rfl rfl (by decide)

/-- C1 counterexample initial state: a fresh statement record. -/
def c1CexState : ProcState :=
  { statement := freshStatement 1 1, transactions := [], next_id := 1 }

/-- C1 counterexample parsed input: the savings parser's output on a
one-transaction document. -/
def c1CexParsed : List ParsedTxn :=
  AxisSavingStatementParser.parse_statement
    ["OPENING BALANCE", "01-01-2024 /NEFT/x 5.00 0.00 1"]

/-- C1 counterexample: processing the same statement record twice (the
spec's model lets a new processing attempt mutate the same record) ends
with `parsing_status = "completed"` and `transaction_count = 1`, while
the statement now owns two transaction rows — the loop appends rows
without clearing the previous run's, so the completed summary no longer
equals the fold over the owned rows. -/
theorem C1_counterexample_reprocessing_breaks_summary :
    ((process_statement (fun _ _ => some false) [] true c1CexParsed
        (process_statement (fun _ _ => some false) [] true c1CexParsed
          c1CexState).2).2.statement.parsing_status = "completed") ∧
    ((process_statement (fun _ _ => some false) [] true c1CexParsed
        (process_statement (fun _ _ => some false) [] true c1CexParsed
          c1CexState).2).2.statement.transaction_count = 1) ∧
    ((process_statement (fun _ _ => some false) [] true c1CexParsed
        (process_statement (fun _ _ => some false) [] true c1CexParsed
          c1CexState).2).2.transactions.length = 2) ∧
    ((process_statement (fun _ _ => some false) [] true c1CexParsed
        (process_statement (fun _ _ => some false) [] true c1CexParsed
          c1CexState).2).2.statement.transaction_count ≠
      (process_statement (fun _ _ => some false) [] true c1CexParsed
        (process_statement (fun _ _ => some false) [] true c1CexParsed
          c1CexState).2).2.transactions.length) := by
  decide

/-! ## Claim C5: direction inference in the savings parser -/

theorem digPlus_ne_nil {cs a r} (h : digPlus cs = some (a, r)) : a ≠ [] := by
  unfold digPlus at h
  by_cases he : (cs.takeWhile isDig).isEmpty
  · simp [he] at h
  · simp only [he, if_false, Option.some_inj, Bool.false_eq_true] at h
    cases h
    simpa using he

theorem takeAmt_ne_nil {cs g r} (h : takeAmt cs = some (g, r)) : g ≠ [] := by
  unfold takeAmt at h
  simp only [Option.bind_eq_bind, Option.bind_eq_some, Option.pure_def,
    Option.some_inj] at h
  obtain ⟨⟨a, r1⟩, hd, ⟨r2, he, ⟨⟨b, r3⟩, ht, hfin⟩⟩⟩ := h
  have h1 : a ++ '.' :: b = g := congrArg Prod.fst hfin
  rw [← h1]
  simp

theorem tailAfterDesc_debit_ne_nil {cs g3 g4 g5}
    (h : tailAfterDesc cs = some (g3, g4, g5)) : g3 ≠ [] := by
  unfold tailAfterDesc at h
  simp only [Option.bind_eq_bind, Option.bind_eq_some, Option.pure_def,
    Option.some_inj] at h
  obtain ⟨⟨w1, r1⟩, hw, ⟨⟨a3, r2⟩, ha, ⟨⟨w2, r3⟩, hw2, ⟨⟨a4, r4⟩, ha2,
    ⟨⟨w3, r5⟩, hw3, ⟨⟨a5, r6⟩, hd5, hfin⟩⟩⟩⟩⟩⟩ := h
  have h1 : a3 = g3 := congrArg Prod.fst hfin
  rw [← h1]
  exact takeAmt_ne_nil ha

theorem descTry_debit_ne_nil {run after : List Char} :
    ∀ {n : Nat} {kept g3 g4 g5},
      descTry run after n = some (kept, g3, g4, g5) → g3 ≠ [] := by
  intro n
  induction n with
  | zero =>
    intro kept g3 g4 g5 h
    simp [descTry] at h
  | succ k ih =>
    intro kept g3 g4 g5 h
    unfold descTry at h
    cases ht : tailAfterDesc (run.drop (k + 1) ++ after) with
    | none =>
      rw [ht] at h
      exact ih h
    | some q =>
      obtain ⟨a, b, c⟩ := q
      rw [ht] at h
      cases h
      exact tailAfterDesc_debit_ne_nil ht

theorem asString_ne_empty {l : List Char} (h : l ≠ []) : l.asString ≠ "" := by
  intro hc
  exact h (congrArg String.data hc)

theorem matchSavingsAt_debit_ne {cs g1 g2 g3 g4 g5}
    (h : matchSavingsAt cs = some (g1, g2, g3, g4, g5)) : g3 ≠ "" := by
  unfold matchSavingsAt at h
  simp only [Option.bind_eq_bind, Option.bind_eq_some, Option.pure_def,
    Option.some_inj] at h
  obtain ⟨⟨d1, r1⟩, hd, ⟨⟨w1, r2⟩, hw, ⟨r3, he, ⟨⟨kept, a3, a4, a5⟩, hdt, hfin⟩⟩⟩⟩ := h
  have h3 : a3.asString = g3 := congrArg (fun x => x.2.2.1) hfin
  rw [← h3]
  exact asString_ne_empty (descTry_debit_ne_nil hdt)

theorem searchSavings_debit_ne {cs g1 g2 g3 g4 g5}
    (h : searchSavings cs = some (g1, g2, g3, g4, g5)) : g3 ≠ "" := by
  induction cs with
  | nil => simp [searchSavings] at h
  | cons c rest ih =>
    unfold searchSavings at h
    cases hm : matchSavingsAt (c :: rest) with
    | none =>
      rw [hm] at h
      exact ih h
    | some g =>
      rw [hm] at h
      cases h
      exact matchSavingsAt_debit_ne hm

/-- C5 failing input: a savings line whose credit column carries 500.00
while the debit column carries 0.00. -/
def c5Line : String := "01-01-2024 /UPI/JOHN/ABC 0.00 500.00 1234"

/-- C5: every transaction the savings line grammar extracts is a Debit — the
regex requires both amount columns, so the debit group is never empty and
the `elif credit_str` branch is unreachable.  At the failing input the
credit column is populated with 500.00, yet the extracted transaction is a
Debit of amount 0.00 instead of the claimed Credit of 500.00. -/
theorem C5_savings_direction_always_debit :
    (∀ line t, AxisSavingStatementParser.parse_transaction_line line = some t →
      t.transaction_type = "Debit") ∧
    (searchSavings c5Line.data).map (fun g => (g.2.2.1, g.2.2.2.1)) =
      some ("0.00", "500.00") ∧
    (AxisSavingStatementParser.parse_transaction_line c5Line).map
      (fun t => (t.transaction_type, t.amount)) =
      some ("Debit", pyFloatAmount "0.00") ∧
    pyFloatAmount "0.00" = 0 ∧ pyFloatAmount "500.00" = 500 := by
  refine ⟨?_, by rfl, by rfl, ?_, ?_⟩
  · intro line t h
    unfold AxisSavingStatementParser.parse_transaction_line at h
    cases hs : searchSavings line.data with
    | none => rw [hs] at h; cases h
    | some g =>
      obtain ⟨g1, g2, g3, g4, g5⟩ := g
      rw [hs] at h
      dsimp only at h
      cases hd : strptimeDMY g1 with
      | none => rw [hd] at h; cases h
      | some date =>
        rw [hd] at h
        dsimp only at h
        rw [if_pos (searchSavings_debit_ne hs)] at h
        cases h
        rfl
  · have h0 : pyFloatAmount "0.00" = ((0 : Nat) : Rat) + ((0 : Nat) : Rat) / 100 := rfl
    rw [h0]
    norm_num
  · have h0 : pyFloatAmount "500.00" = ((500 : Nat) : Rat) + ((0 : Nat) : Rat) / 100 := rfl
    rw [h0]
    norm_num

/-! ## Claim C6: numeric-reference fallback of the categorizer -/

theorem isPyWs_of_isDig {c : Char} (h : isDig c = true) : isPyWs c = false := by
  simp only [isDig, Bool.and_eq_true, decide_eq_true_eq] at h
  simp only [isPyWs, Bool.or_eq_false_iff, decide_eq_false_iff_not]
  omega

theorem toLower_of_isDig {c : Char} (h : isDig c = true) : c.toLower = c := by
  simp only [isDig, Bool.and_eq_true, decide_eq_true_eq] at h
  unfold Char.toLower
  rw [if_neg (by omega)]

theorem asString_data (s : String) : s.data.asString = s := rfl

theorem pyLower_of_all_digit {d : String} (h : d.data.all isDig = true) :
    pyLower d = d := by
  unfold pyLower
  have hmap : ∀ l : List Char, l.all isDig = true → l.map Char.toLower = l := by
    intro l hl
    induction l with
    | nil => rfl
    | cons c cs ih =>
      simp only [List.all_cons, Bool.and_eq_true] at hl
      simp [toLower_of_isDig hl.1, ih hl.2]
  rw [hmap d.data h]
  exact asString_data d

theorem listContains_all_digit_false {d s : List Char} (hd : d.all isDig = true)
    (hs : s.any (fun c => !isDig c) = true) : listContains d s = false := by
  induction d with
  | nil =>
    cases s with
    | nil => simp at hs
    | cons x xs => simp [listContains]
  | cons c rest ih =>
    have hrest : rest.all isDig = true := by
      simp only [List.all_cons, Bool.and_eq_true] at hd
      exact hd.2
    simp only [listContains, Bool.or_eq_false_iff]
    refine ⟨?_, ih hrest⟩
    by_cases hp : s.isPrefixOf (c :: rest) = true
    · exfalso
      obtain ⟨x, hxs, hxd⟩ := List.any_eq_true.mp hs
      have hsub : x ∈ c :: rest :=
        (List.isPrefixOf_iff_prefix.mp hp).subset hxs
      have := List.all_eq_true.mp hd x hsub
      simp_all
    · cases hb : s.isPrefixOf (c :: rest) with
      | true => exact absurd hb hp
      | false => rfl

theorem matchPat_lit_all_digit {d : String} (hd : d.data.all isDig = true)
    {s : String} (hs : s.data.any (fun c => !isDig c) = true) :
    matchPat (.lit s) d = false := by
  simp only [matchPat, strContains]
  exact listContains_all_digit_false hd hs

theorem hasDigitRun6_all_digit {d : List Char} (hd : d.all isDig = true) :
    hasDigitRun6 d = decide (6 ≤ d.length) := by
  induction d with
  | nil => simp [hasDigitRun6]
  | cons c rest ih =>
    have hrest : rest.all isDig = true := by
      simp only [List.all_cons, Bool.and_eq_true] at hd
      exact hd.2
    have htake : ((c :: rest).take 6).all isDig = true := by
      rw [List.all_eq_true]
      intro x hx
      exact List.all_eq_true.mp hd x (List.take_subset 6 (c :: rest) hx)
    simp only [hasDigitRun6, htake, Bool.and_true, ih hrest, List.length_take,
      List.length_cons]
    by_cases h6 : 6 ≤ rest.length + 1
    · simp only [decide_eq_true h6]
      have : min 6 (rest.length + 1) = 6 := by omega
      simp [this]
    · have h6' : ¬6 ≤ rest.length := by omega
      have : min 6 (rest.length + 1) ≠ 6 := by omega
      simp [h6, h6', this]

theorem dropWhile_ws_all_digit : ∀ {l : List Char}, l.all isDig = true →
    l.dropWhile isPyWs = l := by
  intro l hl
  cases l with
  | nil => rfl
  | cons c cs =>
    simp only [List.all_cons, Bool.and_eq_true] at hl
    simp [List.dropWhile_cons, isPyWs_of_isDig hl.1]

theorem stripChars_all_digit {d : List Char} (hd : d.all isDig = true) :
    stripChars d = d := by
  unfold stripChars
  rw [dropWhile_ws_all_digit hd, dropWhile_ws_all_digit (by simpa using hd),
    List.reverse_reverse]

theorem digitsWsDigits_all_digit {d : List Char} (hd : d.all isDig = true) :
    digitsWsDigits d = false := by
  unfold digitsWsDigits
  have h1 : d.dropWhile isDig = [] := by
    rw [List.dropWhile_eq_nil_iff]
    intro x hx
    exact List.all_eq_true.mp hd x hx
  rw [h1]
  simp

/-- The `any` of a pattern list over an all-digit description reduces to
"the list holds the numeric-reference regex and the description has at
least six digits". -/
theorem anyPats_all_digit {d : String} (hd : d.data.all isDig = true)
    (pats : List Pat)
    (hp : ∀ p ∈ pats, ∀ s, p = Pat.lit s → s.data.any (fun c => !isDig c) = true) :
    pats.any (fun p => matchPat p d) =
      (pats.contains Pat.numRef && decide (6 ≤ d.data.length)) := by
  induction pats with
  | nil => simp
  | cons p ps ih =>
    have hps : ∀ p ∈ ps, ∀ s, p = Pat.lit s → s.data.any (fun c => !isDig c) = true :=
      fun q hq => hp q (List.mem_cons_of_mem p hq)
    simp only [List.any_cons, List.contains_cons, ih hps]
    cases p with
    | lit s =>
      rw [matchPat_lit_all_digit hd (hp (.lit s) (List.mem_cons_self _ _) s rfl)]
      have hne : (Pat.numRef == Pat.lit s) = false := rfl
      simp [hne]
    | numRef =>
      simp only [matchPat, hasDigitRun6_all_digit hd]
      cases h6 : decide (6 ≤ d.data.length) <;> simp

theorem find?_congr_pred {α : Type} {l : List α} {p q : α → Bool}
    (h : ∀ a ∈ l, p a = q a) : l.find? p = l.find? q := by
  induction l with
  | nil => rfl
  | cons a as ih =>
    simp only [List.find?_cons, h a (List.mem_cons_self _ _)]
    cases q a with
    | true => rfl
    | false => exact ih (fun b hb => h b (List.mem_cons_of_mem a hb))

/-- C6 counterexample: `12345` is a non-empty all-digit description that
matches no category pattern (five digits is below the six-digit
numeric-reference rule) and misses the whitespace the fallback regex
`^\d+\s+\d*$` requires, so it is categorized `others`, not
`payments_transfers`. -/
theorem C6_counterexample_short_digit_reference :
    TransactionCategorizer.categorize "12345" = "others" ∧
    "12345".data.all isDig = true ∧ "12345" ≠ "" := by
  decide

/-- C6 amended: an all-digit description is categorized
`payments_transfers` exactly when it has at least six digits (then the
`\d{6,}\s*\d*` rule of the payments_transfers category matches); an
all-digit description of fewer than six digits matches no rule and no
fallback (the fallback regex `^\d+\s+\d*$` demands interior whitespace)
and is categorized `others`. -/
theorem C6_all_digit_categorization (d : String)
    (hdig : d.data.all isDig = true) :
    TransactionCategorizer.categorize d =
      if 6 ≤ d.data.length then "payments_transfers" else "others" := by
  unfold TransactionCategorizer.categorize
  rw [pyLower_of_all_digit hdig]
  have htable : ∀ cp ∈ categoriesTable, ∀ p ∈ cp.2,
      (match p with
        | Pat.lit s => s.data.any fun c => !isDig c
        | Pat.numRef => true) = true := by decide
  have hpred : ∀ cp ∈ categoriesTable,
      (cp.2.any fun p => matchPat p d) =
        (cp.2.contains Pat.numRef && decide (6 ≤ d.data.length)) := by
    intro cp hcp
    refine anyPats_all_digit hdig cp.2 ?_
    intro p hp s hs
    have := htable cp hcp p hp
    rw [hs] at this
    exact this
  dsimp only
  rw [find?_congr_pred hpred]
  cases h6 : decide (6 ≤ d.data.length) with
  | true =>
    have h6' : 6 ≤ d.data.length := of_decide_eq_true h6
    simp only [Bool.and_true]
    have hpay : categoriesTable.find? (fun cp => cp.2.contains Pat.numRef) =
        some ("payments_transfers",
          [ .lit "bbps payment", .lit "neft", .lit "imps", .lit "upi",
            .lit "transfer", .numRef ]) := by decide
    rw [hpay]
    dsimp only
    rw [if_pos h6']
  | false =>
    have h6' : ¬6 ≤ d.data.length := of_decide_eq_false h6
    simp only [Bool.and_false]
    rw [List.find?_eq_none.mpr (by simp)]
    have hstrip : (pyStrip d).data = d.data := by
      unfold pyStrip
      rw [stripChars_all_digit hdig]
      rfl
    dsimp only
    rw [hstrip, digitsWsDigits_all_digit hdig]
    rw [if_neg h6']
    rfl

/-- C6 witness: a seven-digit reference with no rule match beyond the
numeric-reference pattern is categorized `payments_transfers`. -/
theorem C6_all_digit_categorization_witness :
    TransactionCategorizer.categorize "1234567" =
      if 6 ≤ "1234567".data.length then "payments_transfers" else "others" :=
  C6_all_digit_categorization "1234567" (by decide)

/-! ## Claim C2: priority and pattern tie-break of categorize_transaction -/

theorem listLtChars_asymm : ∀ {a b : List Char},
    listLtChars a b = true → listLtChars b a = false := by
  intro a
  induction a with
  | nil =>
    intro b h
    cases b with
    | nil => simp [listLtChars] at h
    | cons y ys => simp [listLtChars]
  | cons x xs ih =>
    intro b h
    cases b with
    | nil => simp [listLtChars] at h
    | cons y ys =>
      simp only [listLtChars] at h ⊢
      by_cases h1 : x < y
      · rw [if_neg (lt_asymm h1), if_pos h1]
      · by_cases h2 : y < x
        · rw [if_neg h1, if_pos h2] at h
          cases h
        · rw [if_neg h1, if_neg h2] at h
          rw [if_neg h2, if_neg h1]
          exact ih h

theorem pyStrLt_asymm {a b : String} (h : pyStrLt a b = true) :
    pyStrLt b a = false :=
  listLtChars_asymm h

/-- C2: in a rule set of two active rules for the user that both match the
description with equal priority, `categorize_transaction` returns the
category of the rule with the lexicographically earlier pattern, whatever
the table order of the two rows — the rules are evaluated in
(priority descending, pattern ascending) order and the first match wins. -/
theorem C2_equal_priority_lex_tie_break (oracle : RegexOracle) (u : Nat)
    (description : String) (r1 r2 : CategoryMapping)
    (hu1 : r1.user_id = u) (hu2 : r2.user_id = u)
    (ha1 : r1.is_active = true) (ha2 : r2.is_active = true)
    (hp : r1.priority = r2.priority)
    (hlt : pyStrLt r1.pattern r2.pattern = true)
    (hm1 : CategoryRepository.matchesMapping oracle (pyLower description) r1 = true)
    (hm2 : CategoryRepository.matchesMapping oracle (pyLower description) r2 = true) :
    CategoryRepository.categorize_transaction oracle [r1, r2] u description =
      some r1.category ∧
    CategoryRepository.categorize_transaction oracle [r2, r1] u description =
      some r1.category := by
  have hlt21 : pyStrLt r2.pattern r1.pattern = false := pyStrLt_asymm hlt
  have hpr12 : decide (r1.priority < r2.priority) = false := by
    rw [hp]; simp
  have hpr21 : decide (r2.priority < r1.priority) = false := by
    rw [hp]; simp
  have heq21 : decide (r2.priority = r1.priority) = true := by
    simp [hp]
  have heq12 : decide (r1.priority = r2.priority) = true := by
    simp [hp]
  constructor
  · unfold CategoryRepository.categorize_transaction
      CategoryRepository.get_category_mappings_by_user
    simp only [List.filter, hu1, hu2, ha1, ha2, decide_eq_true_eq, decide_True,
      Bool.and_true, sortBy, insertBy, mappingOrderLt, hpr12, hpr21, heq21,
      hlt21, Bool.or_false, Bool.and_false, Bool.false_or, Bool.and_self,
      if_false, decide_eq_true heq21]
    simp only [decide_True, Bool.and_true, hpr21, heq21, hlt21,
      Bool.and_false, Bool.or_false, Bool.false_eq_true, if_false]
    rw [List.find?_cons_of_pos _ hm1]
    rfl
  · unfold CategoryRepository.categorize_transaction
      CategoryRepository.get_category_mappings_by_user
    simp only [List.filter, hu1, hu2, ha1, ha2, decide_eq_true_eq, decide_True,
      Bool.and_true, sortBy, insertBy, mappingOrderLt, hpr12, hpr21, heq12,
      hlt, Bool.or_false, Bool.and_false, Bool.false_or, Bool.and_self,
      Bool.and_true, Bool.or_true, Bool.false_eq_true, Bool.true_eq_false,
      if_true, if_false]
    rw [List.find?_cons_of_pos _ hm1]
    rfl

/-- C2 witness rule with the lexicographically earlier pattern. -/
def c2r1 : CategoryMapping :=
  { user_id := 1, pattern := "alpha", category := "food_dining",
    is_regex := false, priority := 5, is_active := true }

/-- C2 witness rule with the later pattern and the same priority. -/
def c2r2 : CategoryMapping :=
  { user_id := 1, pattern := "beta", category := "transport",
    is_regex := false, priority := 5, is_active := true }

/-- C2 witness: both equal-priority rules match `xx alphabeta`; in either
table order the rule with pattern `alpha` wins. -/
theorem C2_equal_priority_lex_tie_break_witness :
    CategoryRepository.categorize_transaction (fun _ _ => some false)
      [c2r1, c2r2] 1 "xx alphabeta" = some c2r1.category ∧
    CategoryRepository.categorize_transaction (fun _ _ => some false)
      [c2r2, c2r1] 1 "xx alphabeta" = some c2r1.category :=
  C2_equal_priority_lex_tie_break (fun _ _ => some false) 1 "xx alphabeta"
    c2r1 c2r2 rfl rfl rfl rfl rfl (by decide) (by decide) (by decide)

/-! ## Claim C4: section window of the savings parser -/

/-- Line carries the opening marker (tested on the stripped line, as the
loop does). -/
def openMark (l : String) : Bool := strContains (pyStrip l) "OPENING BALANCE"

/-- Line carries the closing marker. -/
def closeMark (l : String) : Bool := strContains (pyStrip l) "CLOSING BALANCE"

/-- The `transaction_section` flag after one line: an opening marker sets
it (checked first), a closing marker clears it, any other line leaves
it. -/
def nextFlag (sect : Bool) (l : String) : Bool :=
  if openMark l then true else if closeMark l then false else sect

/-- The `transaction_section` flag before line `i`, starting from
`sect`. -/
def flagBefore (sect : Bool) : List String → Nat → Bool
  | _, 0 => sect
  | [], _ + 1 => sect
  | l :: ls, i + 1 => flagBefore (nextFlag sect l) ls i

theorem nextFlag_empty (sect : Bool) : nextFlag sect "" = sect := rfl

theorem flagBefore_zero (sect : Bool) (lines : List String) :
    flagBefore sect lines 0 = sect := by
  cases lines <;> rfl

theorem flagBefore_cons_succ (sect : Bool) (l : String) (ls : List String)
    (i : Nat) :
    flagBefore sect (l :: ls) (i + 1) = flagBefore (nextFlag sect l) ls i := rfl

theorem flagBefore_succ : ∀ (lines : List String) (sect : Bool) (i : Nat),
    flagBefore sect lines (i + 1) =
      nextFlag (flagBefore sect lines i) (lines.getD i "") := by
  intro lines
  induction lines with
  | nil =>
    intro sect i
    cases i with
    | zero => exact (nextFlag_empty sect).symm
    | succ i => exact (nextFlag_empty sect).symm
  | cons l ls ih =>
    intro sect i
    cases i with
    | zero =>
      rw [flagBefore_cons_succ, flagBefore_zero, flagBefore_zero,
        List.getD_cons_zero]
    | succ i =>
      rw [flagBefore_cons_succ, ih (nextFlag sect l) i, List.getD_cons_succ,
        flagBefore_cons_succ]

theorem flagBefore_false_iff (lines : List String) : ∀ i,
    flagBefore false lines i = true ↔
      ∃ j, j < i ∧ openMark (lines.getD j "") = true ∧
        ∀ k, j < k → k < i → closeMark (lines.getD k "") = true →
          openMark (lines.getD k "") = true := by
  intro i
  induction i with
  | zero =>
    constructor
    · intro h
      exact absurd h (by cases lines <;> simp [flagBefore])
    · rintro ⟨j, hj, _⟩
      omega
  | succ i ih =>
    rw [flagBefore_succ]
    unfold nextFlag
    by_cases ho : openMark (lines.getD i "") = true
    · rw [if_pos ho]
      constructor
      · intro _
        exact ⟨i, Nat.lt_succ_self i, ho, fun k hk1 hk2 _ => by omega⟩
      · intro _
        rfl
    · rw [if_neg ho]
      by_cases hc : closeMark (lines.getD i "") = true
      · rw [if_pos hc]
        constructor
        · intro h
          cases h
        · rintro ⟨j, hj, hopen, hmid⟩
          rcases Nat.lt_succ_iff_lt_or_eq.mp hj with hji | rfl
          · exact absurd (hmid i hji (Nat.lt_succ_self i) hc) ho
          · exact absurd hopen ho
      · rw [if_neg hc]
        rw [ih]
        constructor
        · rintro ⟨j, hj, hopen, hmid⟩
          refine ⟨j, by omega, hopen, ?_⟩
          intro k hk1 hk2 hck
          rcases Nat.lt_succ_iff_lt_or_eq.mp hk2 with hki | rfl
          · exact hmid k hk1 hki hck
          · exact absurd hck (by simpa using hc)
        · rintro ⟨j, hj, hopen, hmid⟩
          rcases Nat.lt_succ_iff_lt_or_eq.mp hj with hji | rfl
          · exact ⟨j, hji, hopen, fun k hk1 hk2 hck => hmid k hk1 (by omega) hck⟩
          · exact absurd hopen ho

theorem exists_succ_split {n : Nat} {P : Nat → Prop} :
    (∃ i, i < n + 1 ∧ P i) ↔ P 0 ∨ ∃ j, j < n ∧ P (j + 1) := by
  constructor
  · rintro ⟨i, hi, hp⟩
    cases i with
    | zero => exact Or.inl hp
    | succ j => exact Or.inr ⟨j, by omega, hp⟩
  · rintro (hp | ⟨j, hj, hp⟩)
    · exact ⟨0, by omega, hp⟩
    · exact ⟨j + 1, by omega, hp⟩

theorem scanLines_cons (sect : Bool) (l : String) (ls : List String) :
    AxisSavingStatementParser.scanLines sect (l :: ls) =
      if openMark l then AxisSavingStatementParser.scanLines true ls
      else if closeMark l then AxisSavingStatementParser.scanLines false ls
      else if sect && pyStrip l ≠ "" &&
          AxisSavingStatementParser.dateGate (pyStrip l).data then
        (AxisSavingStatementParser.parse_transaction_line (pyStrip l)).toList ++
          AxisSavingStatementParser.scanLines sect ls
      else AxisSavingStatementParser.scanLines sect ls := rfl

theorem mem_scanLines (t : ParsedTxn) : ∀ (lines : List String) (sect : Bool),
    t ∈ AxisSavingStatementParser.scanLines sect lines ↔
      ∃ i, i < lines.length ∧ flagBefore sect lines i = true ∧
        openMark (lines.getD i "") = false ∧
        closeMark (lines.getD i "") = false ∧
        pyStrip (lines.getD i "") ≠ "" ∧
        AxisSavingStatementParser.dateGate (pyStrip (lines.getD i "")).data = true ∧
        AxisSavingStatementParser.parse_transaction_line (pyStrip (lines.getD i "")) =
          some t := by
  intro lines
  induction lines with
  | nil =>
    intro sect
    simp [AxisSavingStatementParser.scanLines]
  | cons l ls ih =>
    intro sect
    rw [List.length_cons, exists_succ_split]
    simp only [List.getD_cons_zero, List.getD_cons_succ, flagBefore_zero,
      flagBefore_cons_succ]
    rw [← ih (nextFlag sect l)]
    rw [scanLines_cons]
    by_cases ho : openMark l = true
    · have hnf : nextFlag sect l = true := by simp [nextFlag, ho]
      rw [if_pos ho, hnf]
      simp [ho]
    · have ho' : openMark l = false := by
        revert ho; cases openMark l <;> simp
      rw [if_neg (by simp [ho'])]
      by_cases hc : closeMark l = true
      · have hnf : nextFlag sect l = false := by simp [nextFlag, ho', hc]
        rw [if_pos hc, hnf]
        simp [hc]
      · have hc' : closeMark l = false := by
          revert hc; cases closeMark l <;> simp
        have hnf : nextFlag sect l = sect := by simp [nextFlag, ho', hc']
        rw [if_neg (by simp [hc']), hnf]
        by_cases hb : (sect && pyStrip l ≠ "" &&
            AxisSavingStatementParser.dateGate (pyStrip l).data) = true
        · rw [if_pos hb]
          simp only [Bool.and_eq_true, decide_eq_true_eq] at hb
          obtain ⟨⟨hsect, hne⟩, hg⟩ := hb
          simp [List.mem_append, Option.mem_toList, hsect, ho', hc', hne, hg,
            Option.mem_def]
        · rw [if_neg hb]
          have hP0 : ¬(sect = true ∧ openMark l = false ∧ closeMark l = false ∧
              ¬pyStrip l = "" ∧
              AxisSavingStatementParser.dateGate (pyStrip l).data = true ∧
              AxisSavingStatementParser.parse_transaction_line (pyStrip l) =
                some t) := by
            rintro ⟨hsect, _, _, hne, hg, _⟩
            exact hb (by simp [hsect, hne, hg])
          constructor
          · intro hm
            exact Or.inr hm
          · rintro (hp | hm)
            · exact absurd hp hP0
            · exact hm

/-- C4 amended: a transaction is extracted from line `i` of a savings
document exactly when the line parses, is no marker line, is non-blank,
passes the leading-date gate, and lies after an `OPENING BALANCE` marker
with no effective `CLOSING BALANCE` marker in between — i.e. strictly
between an opening marker and the next closing marker, or the end of the
document when no closing marker follows.  Marker lines themselves are
never extracted, and later opening/closing pairs in the same document
are still extracted. -/
theorem C4_savings_window_characterization (lines : List String) (t : ParsedTxn) :
    t ∈ AxisSavingStatementParser.parse_statement lines ↔
      ∃ i, i < lines.length ∧
        (∃ j, j < i ∧ openMark (lines.getD j "") = true ∧
          ∀ k, j < k → k < i → closeMark (lines.getD k "") = true →
            openMark (lines.getD k "") = true) ∧
        openMark (lines.getD i "") = false ∧
        closeMark (lines.getD i "") = false ∧
        pyStrip (lines.getD i "") ≠ "" ∧
        AxisSavingStatementParser.dateGate (pyStrip (lines.getD i "")).data = true ∧
        AxisSavingStatementParser.parse_transaction_line (pyStrip (lines.getD i "")) =
          some t := by
  unfold AxisSavingStatementParser.parse_statement sortTxnsDateDesc
  rw [mem_sortBy, mem_scanLines]
  apply exists_congr
  intro i
  rw [flagBefore_false_iff]

/-- C4 counterexample document: an opening marker followed by a
transaction line, with no closing marker anywhere. -/
def c4Doc : List String := ["OPENING BALANCE", "01-01-2024 /NEFT/x 5.00 0.00 1"]

/-- C4 counterexample: the savings parser extracts a transaction from a
document that has no `CLOSING BALANCE` marker at all, so the line lies
between an opening marker and no closing marker — extraction is not
limited to lines strictly between an opening marker and a next closing
marker, as the claim states. -/
theorem C4_counterexample_open_section_without_close :
    (AxisSavingStatementParser.parse_statement c4Doc).length = 1 ∧
    c4Doc.length = 2 ∧
    (∀ k, k < 2 → closeMark (c4Doc.getD k "") = false) := by
  refine ⟨by decide, rfl, by decide⟩

/-! ## Claim C3: categories are never null or empty -/

theorem categorize_mem (d : String) :
    TransactionCategorizer.categorize d = "others" ∨
    TransactionCategorizer.categorize d = "payments_transfers" ∨
    TransactionCategorizer.categorize d ∈ categoriesTable.map Prod.fst := by
  unfold TransactionCategorizer.categorize
  dsimp only
  cases hf : categoriesTable.find?
      (fun cp => cp.2.any (fun p => matchPat p (pyLower d))) with
  | some cp =>
    right; right
    dsimp only
    exact List.mem_map_of_mem Prod.fst (List.mem_of_find?_eq_some hf)
  | none =>
    dsimp only
    by_cases hfb : digitsWsDigits (pyStrip (pyLower d)).data = true
    · rw [if_pos hfb]
      right; left; rfl
    · rw [if_neg hfb]
      left; rfl

theorem categorize_ne_empty (d : String) :
    TransactionCategorizer.categorize d ≠ "" := by
  rcases categorize_mem d with h | h | h
  · rw [h]; decide
  · rw [h]; decide
  · simp only [categoriesTable, List.map_cons, List.map_nil,
      List.mem_cons, List.not_mem_nil, or_false] at h
    rcases h with h | h | h | h | h | h | h | h | h | h <;> rw [h] <;> decide

theorem saving_line_category {l : String} {t : ParsedTxn}
    (h : AxisSavingStatementParser.parse_transaction_line l = some t) :
    t.category = some (TransactionCategorizer.categorize t.description) := by
  unfold AxisSavingStatementParser.parse_transaction_line at h
  cases hs : searchSavings l.data with
  | none => rw [hs] at h; cases h
  | some g =>
    obtain ⟨g1, g2, g3, g4, g5⟩ := g
    rw [hs] at h
    dsimp only at h
    cases hd : strptimeDMY g1 with
    | none => rw [hd] at h; cases h
    | some date =>
      rw [hd] at h
      dsimp only at h
      by_cases h3 : g3 ≠ ""
      · rw [if_pos h3] at h
        cases h
        rfl
      · rw [if_neg h3] at h
        by_cases h4 : g4 ≠ ""
        · rw [if_pos h4] at h
          cases h
          rfl
        · rw [if_neg h4] at h
          cases h

theorem saving_statement_category {lines : List String} {t : ParsedTxn}
    (h : t ∈ AxisSavingStatementParser.parse_statement lines) :
    t.category = some (TransactionCategorizer.categorize t.description) := by
  unfold AxisSavingStatementParser.parse_statement sortTxnsDateDesc at h
  rw [mem_sortBy, mem_scanLines] at h
  obtain ⟨i, _, _, _, _, _, _, hp⟩ := h
  exact saving_line_category hp

theorem cc_line_category {l : String} {t : ParsedTxn}
    (h : AxisBankStatementParser.parse_transaction_line l = some t) :
    ∃ d, t.category = some (TransactionCategorizer.categorize d) := by
  unfold AxisBankStatementParser.parse_transaction_line at h
  cases hm : matchCCAt l.data with
  | none => rw [hm] at h; cases h
  | some g =>
    obtain ⟨a, b, c, d⟩ := g
    rw [hm] at h
    dsimp only at h
    cases h
    exact ⟨b, rfl⟩

theorem cc_statement_category {lines : List String} {t : ParsedTxn}
    (h : t ∈ AxisBankStatementParser.parse_statement lines) :
    ∃ d, t.category = some (TransactionCategorizer.categorize d) := by
  unfold AxisBankStatementParser.parse_statement sortTxnsDateDesc at h
  rw [mem_sortBy, List.mem_filterMap] at h
  obtain ⟨line, _, hsome⟩ := h
  by_cases hskip : (strContains line "Transaction Details" ||
      strContains line "Page" || strContains line "Credit Card Number" ||
      strContains line "End of Transaction" || pyStrip line = "") = true
  · rw [if_pos hskip] at hsome
    cases hsome
  · rw [if_neg hskip] at hsome
    exact cc_line_category hsome

theorem processFold_rows (oracle : RegexOracle) (db : List CategoryMapping) :
    ∀ (parsed : List ParsedTxn) (td tc : Rat) (s : ProcState) (r : TxnRow),
      r ∈ (parsed.foldl (processStep oracle db) (td, tc, s)).2.2.transactions →
      r ∈ s.transactions ∨ ∃ txn, txn ∈ parsed ∧
        r.category = pyOrCategory (CategoryRepository.categorize_transaction
          oracle db s.statement.user_id txn.description) txn.category := by
  intro parsed
  induction parsed with
  | nil =>
    intro td tc s r h
    exact Or.inl h
  | cons txn rest ih =>
    intro td tc s r h
    rw [List.foldl_cons] at h
    have hstate : (processStep oracle db (td, tc, s) txn).2.2 =
        create_transaction s txn
          (if txn.is_debit then TransactionType.DEBIT else TransactionType.CREDIT)
          (pyOrCategory (CategoryRepository.categorize_transaction oracle db
            s.statement.user_id txn.description) txn.category) := by
      cases hdb : txn.is_debit <;> simp [processStep, hdb]
    rcases hps : processStep oracle db (td, tc, s) txn with ⟨td1, tc1, s1⟩
    have hs1 : s1 = create_transaction s txn
        (if txn.is_debit then TransactionType.DEBIT else TransactionType.CREDIT)
        (pyOrCategory (CategoryRepository.categorize_transaction oracle db
          s.statement.user_id txn.description) txn.category) := by
      rw [← hstate, hps]
    rw [hps] at h
    rcases ih td1 tc1 s1 r h with hmem | ⟨txn2, hmem2, hcat⟩
    · rw [hs1] at hmem
      simp only [create_transaction, List.mem_append, List.mem_singleton] at hmem
      rcases hmem with hold | rfl
      · exact Or.inl hold
      · exact Or.inr ⟨txn, List.mem_cons_self _ _, rfl⟩
    · have huid : s1.statement.user_id = s.statement.user_id := by
        rw [hs1]; rfl
      rw [huid] at hcat
      exact Or.inr ⟨txn2, List.mem_cons_of_mem _ hmem2, hcat⟩

/-- Every category value a parser attaches is non-empty, so every row
written by the processing loop carries a non-empty category. -/
theorem pyOr_parser_category_ne (oracle : RegexOracle) (db : List CategoryMapping)
    (u : Nat) {txn : ParsedTxn} {d : String}
    (hc : txn.category = some (TransactionCategorizer.categorize d)) :
    ∃ c, pyOrCategory (CategoryRepository.categorize_transaction oracle db u
        txn.description) txn.category = some c ∧ c ≠ "" := by
  cases hdb : CategoryRepository.categorize_transaction oracle db u txn.description with
  | none =>
    refine ⟨TransactionCategorizer.categorize d, ?_, categorize_ne_empty d⟩
    simp [pyOrCategory, hc]
  | some c =>
    by_cases he : c = ""
    · refine ⟨TransactionCategorizer.categorize d, ?_, categorize_ne_empty d⟩
      simp [pyOrCategory, he, hc]
    · exact ⟨c, by simp [pyOrCategory, he], he⟩

theorem process_rows_category (oracle : RegexOracle) (db : List CategoryMapping)
    (hasParser : Bool) (parsed : List ParsedTxn) (s : ProcState)
    (hpar : ∀ t ∈ parsed, ∃ d,
      t.category = some (TransactionCategorizer.categorize d)) :
    ∀ r ∈ (process_statement oracle db hasParser parsed s).2.transactions,
      r ∈ s.transactions ∨ ∃ c, r.category = some c ∧ c ≠ "" := by
  intro r hr
  unfold process_statement at hr
  cases hasParser with
  | false =>
    simp only [Bool.not_false, if_true] at hr
    exact Or.inl hr
  | true =>
    simp only [Bool.not_true, Bool.false_eq_true, if_false] at hr
    by_cases hemp : parsed.isEmpty = true
    · rw [if_pos hemp] at hr
      exact Or.inl hr
    · rw [if_neg hemp] at hr
      rcases hfold : parsed.foldl (processStep oracle db)
          (0, 0, update_parsing_status s "processing" none) with ⟨td, tc, s1⟩
      rw [hfold] at hr
      dsimp only at hr
      have hr1 : r ∈ (parsed.foldl (processStep oracle db)
          (0, 0, update_parsing_status s "processing" none)).2.2.transactions := by
        rw [hfold]
        exact hr
      rcases processFold_rows oracle db parsed 0 0
          (update_parsing_status s "processing" none) r hr1 with hmem | ⟨txn, htxn, hcat⟩
      · exact Or.inl hmem
      · obtain ⟨d, hd⟩ := hpar txn htxn
        obtain ⟨c, hc, hcne⟩ := pyOr_parser_category_ne oracle db
          (update_parsing_status s "processing" none).statement.user_id hd
        rw [hcat]
        exact Or.inr ⟨c, hc, hcne⟩

/-- C3: `TransactionCategorizer.categorize` always returns a non-empty
concrete category name (a table category, the numeric fallback, or the
terminal `others`), and every transaction row written by
`process_statement` over either parser's output carries a non-empty,
non-null category (`category or txn.category` falls back to the parser's
categorizer value). -/
theorem C3_category_never_null_or_empty :
    (∀ description, TransactionCategorizer.categorize description ≠ "" ∧
      (TransactionCategorizer.categorize description = "others" ∨
        TransactionCategorizer.categorize description = "payments_transfers" ∨
        TransactionCategorizer.categorize description ∈
          categoriesTable.map Prod.fst)) ∧
    (∀ (oracle : RegexOracle) (db : List CategoryMapping) (hasParser : Bool)
        (lines : List String) (s : ProcState),
      ∀ r ∈ (process_statement oracle db hasParser
          (AxisSavingStatementParser.parse_statement lines) s).2.transactions,
        r ∈ s.transactions ∨ ∃ c, r.category = some c ∧ c ≠ "") ∧
    (∀ (oracle : RegexOracle) (db : List CategoryMapping) (hasParser : Bool)
        (lines : List String) (s : ProcState),
      ∀ r ∈ (process_statement oracle db hasParser
          (AxisBankStatementParser.parse_statement lines) s).2.transactions,
        r ∈ s.transactions ∨ ∃ c, r.category = some c ∧ c ≠ "") := by
  refine ⟨fun d => ⟨categorize_ne_empty d, categorize_mem d⟩, ?_, ?_⟩
  · intro oracle db hasParser lines s
    exact process_rows_category oracle db hasParser _ s
      (fun t ht => ⟨t.description, saving_statement_category ht⟩)
  · intro oracle db hasParser lines s
    exact process_rows_category oracle db hasParser _ s
      (fun t ht => cc_statement_category ht)

/-! ## Claim C8: month-over-month comparison -/

/-- Row carries a truthy (non-NULL, non-empty) category, the `if category:`
guard of the summary. -/
def truthyCat (r : TxnRow) : Bool :=
  match r.category with
  | some c => decide (c ≠ "")
  | none => false

/-- Amount sum of the rows with exactly category `c`. -/
def catAmountSum (q : List TxnRow) (c : String) : Rat :=
  ((q.filter (fun r => r.category = some c)).map (fun r => r.amount)).sum

/-- A month's total spending stated independently of the grouping code:
the amount sum of the user's debit rows with a truthy category dated
within the month's first and last calendar day. -/
def monthSpendingSpec (rows : List TxnRow) (y m : Nat) : Rat :=
  (((summaryRows rows (some (monthStart y m)) (some (monthLast y m))).filter
    truthyCat).map (fun r => r.amount)).sum

theorem mem_dedupFirst {α : Type} [DecidableEq α] :
    ∀ (seen xs : List α) (x : α),
      x ∈ dedupFirst seen xs ↔ x ∈ xs ∧ x ∉ seen := by
  intro seen xs
  induction xs generalizing seen with
  | nil => simp [dedupFirst]
  | cons a as ih =>
    intro x
    unfold dedupFirst
    by_cases ha : a ∈ seen
    · rw [if_pos ha, ih seen x]
      constructor
      · rintro ⟨h1, h2⟩
        exact ⟨List.mem_cons_of_mem a h1, h2⟩
      · rintro ⟨h1, h2⟩
        rcases List.mem_cons.mp h1 with rfl | h1
        · exact absurd ha h2
        · exact ⟨h1, h2⟩
    · rw [if_neg ha]
      rw [List.mem_cons, ih (a :: seen) x]
      constructor
      · rintro (rfl | ⟨h1, h2⟩)
        · exact ⟨List.mem_cons_self _ _, ha⟩
        · refine ⟨List.mem_cons_of_mem a h1, fun hc => h2 (List.mem_cons_of_mem a hc)⟩
      · rintro ⟨h1, h2⟩
        rcases List.mem_cons.mp h1 with rfl | h1
        · exact Or.inl rfl
        · by_cases hxa : x = a
          · exact Or.inl hxa
          · exact Or.inr ⟨h1, by simp [List.mem_cons, hxa, h2]⟩

theorem nodup_dedupFirst {α : Type} [DecidableEq α] :
    ∀ (seen xs : List α), (dedupFirst seen xs).Nodup := by
  intro seen xs
  induction xs generalizing seen with
  | nil => simp [dedupFirst]
  | cons a as ih =>
    unfold dedupFirst
    by_cases ha : a ∈ seen
    · rw [if_pos ha]
      exact ih seen
    · rw [if_neg ha]
      refine List.Nodup.cons ?_ (ih (a :: seen))
      intro hc
      exact ((mem_dedupFirst (a :: seen) as a).mp hc).2 (List.mem_cons_self _ _)

theorem sum_filter_cat_split (c : String) (hc : c ≠ "")
    (cs : List (Option String)) (hnc : (some c) ∉ cs) :
    ∀ q : List TxnRow,
      ((q.filter (fun r => truthyCat r &&
          decide (r.category ∈ (some c : Option String) :: cs))).map
        (fun r => r.amount)).sum =
      catAmountSum q c +
        ((q.filter (fun r => truthyCat r && decide (r.category ∈ cs))).map
          (fun r => r.amount)).sum := by
  intro q
  induction q with
  | nil => simp [catAmountSum]
  | cons r rs ih =>
    simp only [List.filter_cons, catAmountSum] at ih ⊢
    by_cases hrc : r.category = some c
    · have htr : truthyCat r = true := by
        simp [truthyCat, hrc, hc]
      have hmem : decide (r.category ∈ (some c : Option String) :: cs) = true := by
        simp [hrc]
      have hnmem : decide (r.category ∈ cs) = false := by
        simp only [decide_eq_false_iff_not]
        rw [hrc]
        exact hnc
      have hdc : decide (r.category = some c) = true := by
        simp [hrc]
      rw [htr, hmem, hnmem, hdc]
      simp only [Bool.true_and, Bool.and_false, Bool.false_eq_true, if_false,
        if_true, List.map_cons, List.sum_cons]
      rw [ih]
      ring
    · have hdc : decide (r.category = some c) = false := by
        simp [hrc]
      have hsame : decide (r.category ∈ (some c : Option String) :: cs) =
          decide (r.category ∈ cs) := by
        simp [List.mem_cons, hrc]
      rw [hdc, hsame]
      simp only [Bool.false_eq_true, if_false]
      by_cases hkeep : (truthyCat r && decide (r.category ∈ cs)) = true
      · rw [hkeep]
        simp only [if_true, List.map_cons, List.sum_cons]
        rw [ih]
        ring
      · have hkeep' : (truthyCat r && decide (r.category ∈ cs)) = false := by
          revert hkeep
          cases truthyCat r && decide (r.category ∈ cs) <;> simp
        rw [hkeep']
        simp only [Bool.false_eq_true, if_false]
        exact ih

theorem truthy_has_some {r : TxnRow} (h : truthyCat r = true) :
    ∃ c, r.category = some c ∧ c ≠ "" := by
  cases hr : r.category with
  | none => simp [truthyCat, hr] at h
  | some c =>
    refine ⟨c, rfl, ?_⟩
    simpa [truthyCat, hr] using h

theorem sum_entries_eq_sum_filter :
    ∀ (cs : List (Option String)) (q : List TxnRow), cs.Nodup →
      ((cs.filterMap (fun oc =>
          match oc with
          | none => none
          | some c => if c = "" then none else some (catAmountSum q c))).sum) =
        ((q.filter (fun r => truthyCat r && decide (r.category ∈ cs))).map
          (fun r => r.amount)).sum := by
  intro cs
  induction cs with
  | nil =>
    intro q _
    simp
  | cons oc cs ih =>
    intro q hnodup
    have hnd : cs.Nodup := hnodup.of_cons
    have hnm : oc ∉ cs := (List.nodup_cons.mp hnodup).1
    cases oc with
    | none =>
      simp only [List.filterMap_cons]
      rw [ih q hnd]
      congr 1
      apply congrArg
      apply List.filter_congr
      intro r _
      cases htr : truthyCat r with
      | false => simp
      | true =>
        obtain ⟨cc, hcc, _⟩ := truthy_has_some htr
        simp [List.mem_cons, hcc]
    | some c =>
      simp only [List.filterMap_cons]
      by_cases hce : c = ""
      · subst hce
        rw [if_pos rfl]
        dsimp only
        rw [ih q hnd]
        congr 1
        apply congrArg
        apply List.filter_congr
        intro r _
        cases htr : truthyCat r with
        | false => simp
        | true =>
          obtain ⟨cc, hcc, hccne⟩ := truthy_has_some htr
          simp [List.mem_cons, hcc, hccne]
      · rw [if_neg hce]
        dsimp only
        rw [List.sum_cons, ih q hnd]
        exact (sum_filter_cat_split c hce cs hnm q).symm

theorem filterMap_congr_fn {α β : Type} {l : List α} {f g : α → Option β}
    (h : ∀ a ∈ l, f a = g a) : l.filterMap f = l.filterMap g := by
  induction l with
  | nil => rfl
  | cons a as ih =>
    simp only [List.filterMap_cons, h a (List.mem_cons_self _ _)]
    rw [ih (fun b hb => h b (List.mem_cons_of_mem a hb))]

theorem total_spending_summary (rows : List TxnRow) (sd ed : Option Date) :
    total_spending (get_category_summary rows sd ed) =
      (((summaryRows rows sd ed).filter truthyCat).map (fun r => r.amount)).sum := by
  unfold total_spending get_category_summary
  dsimp only
  rw [List.map_filterMap]
  have hpt : ∀ oc ∈ dedupFirst [] ((summaryRows rows sd ed).map (fun r => r.category)),
      (Option.map (fun x => x.2.1)
        (match oc with
          | none => none
          | some c => if c = "" then none
              else some (c,
                (((summaryRows rows sd ed).filter
                    (fun r => r.category = some c)).map (fun r => r.amount)).sum,
                ((summaryRows rows sd ed).filter
                  (fun r => r.category = some c)).length))) =
      (match oc with
        | none => none
        | some c => if c = "" then none
            else some (catAmountSum (summaryRows rows sd ed) c)) := by
    intro oc _
    cases oc with
    | none => rfl
    | some c =>
      dsimp only
      by_cases hce : c = ""
      · rw [if_pos hce, if_pos hce]
        rfl
      · rw [if_neg hce, if_neg hce]
        rfl
  rw [filterMap_congr_fn hpt]
  rw [sum_entries_eq_sum_filter _ (summaryRows rows sd ed) (nodup_dedupFirst _ _)]
  congr 1
  apply congrArg
  apply List.filter_congr
  intro r hr
  cases htr : truthyCat r with
  | false => simp
  | true =>
    simp only [Bool.true_and, Bool.and_true]
    have hmem : r.category ∈ dedupFirst []
        ((summaryRows rows sd ed).map (fun r => r.category)) := by
      rw [mem_dedupFirst]
      exact ⟨List.mem_map_of_mem _ hr, List.not_mem_nil _⟩
    simp [hmem]

/-- C8: under non-negative amounts and valid `YYYY-MM` inputs,
`get_monthly_comparison` reports `spending_difference` as the second
month's total spending minus the first month's, and
`spending_change_percentage` as `0` when the baseline month's total is
`0`, and as `difference / baseline * 100` otherwise. -/
theorem C8_monthly_comparison_difference_and_pct (rows : List TxnRow)
    (y1 m1 y2 m2 : Nat)
    (h1 : validYM y1 m1 = true) (h2 : validYM y2 m2 = true)
    (hpos : ∀ r ∈ rows, 0 ≤ r.amount) :
    ∃ c, get_monthly_comparison rows y1 m1 y2 m2 = some c ∧
      c.spending_difference =
        monthSpendingSpec rows y2 m2 - monthSpendingSpec rows y1 m1 ∧
      (monthSpendingSpec rows y1 m1 = 0 → c.spending_change_percentage = 0) ∧
      (monthSpendingSpec rows y1 m1 ≠ 0 →
        c.spending_change_percentage =
          (monthSpendingSpec rows y2 m2 - monthSpendingSpec rows y1 m1) /
            monthSpendingSpec rows y1 m1 * 100) := by
  have ht1 : total_spending (get_category_summary rows (some (monthStart y1 m1))
      (some (monthLast y1 m1))) = monthSpendingSpec rows y1 m1 :=
    total_spending_summary rows _ _
  have ht2 : total_spending (get_category_summary rows (some (monthStart y2 m2))
      (some (monthLast y2 m2))) = monthSpendingSpec rows y2 m2 :=
    total_spending_summary rows _ _
  unfold get_monthly_comparison
  rw [if_pos (by rw [h1, h2]; rfl)]
  refine ⟨_, rfl, ?_, ?_, ?_⟩
  · dsimp only
    rw [ht1, ht2]
  · intro hz
    dsimp only
    rw [ht1, hz]
    norm_num
  · intro hnz
    have hge : 0 ≤ monthSpendingSpec rows y1 m1 := by
      unfold monthSpendingSpec
      apply List.sum_nonneg
      intro a ha
      obtain ⟨r, hrmem, rfl⟩ := List.mem_map.mp ha
      have hr1 : r ∈ summaryRows rows (some (monthStart y1 m1))
          (some (monthLast y1 m1)) := List.mem_of_mem_filter hrmem
      have hr2 : r ∈ rows := by
        unfold summaryRows at hr1
        exact List.mem_of_mem_filter hr1
      exact hpos r hr2
    have hgt : 0 < monthSpendingSpec rows y1 m1 :=
      lt_of_le_of_ne hge (Ne.symm hnz)
    dsimp only
    rw [ht1, ht2, if_pos hgt]

/-- C8 witness rows: one debit of 1000 in February 2024, nothing in
January (the spec's division-by-zero scenario). -/
def c8Rows : List TxnRow :=
  [{ id := 1, statement_id := 1, transaction_date := .dt ⟨2024, 2, 5⟩,
     description := "shop", amount := 1000, transaction_type := .DEBIT,
     category := some "shopping", original_category := none,
     is_categorized_by_llm := false, llm_confidence := none,
     user_corrected := false }]

/-- C8 witness: comparing 2024-01 (zero spending) against 2024-02. -/
theorem C8_monthly_comparison_difference_and_pct_witness :
    ∃ c, get_monthly_comparison c8Rows 2024 1 2024 2 = some c ∧
      c.spending_difference =
        monthSpendingSpec c8Rows 2024 2 - monthSpendingSpec c8Rows 2024 1 ∧
      (monthSpendingSpec c8Rows 2024 1 = 0 → c.spending_change_percentage = 0) ∧
      (monthSpendingSpec c8Rows 2024 1 ≠ 0 →
        c.spending_change_percentage =
          (monthSpendingSpec c8Rows 2024 2 - monthSpendingSpec c8Rows 2024 1) /
            monthSpendingSpec c8Rows 2024 1 * 100) :=
  C8_monthly_comparison_difference_and_pct c8Rows 2024 1 2024 2
    (by decide) (by decide) (by decide)

end CCParser
